import Mathlib

/-!
Verification of the mates markup-compiler core: a shallow embedding of the
grammar registry, the character scanner, and the structural resolver,
together with theorems settling the specified properties.

The embedding follows the Go source closely.  Machine integers that can only
grow by small bounded amounts (counters, indents, colspans, offsets) are
modelled as Nat; Go maps are modelled as association lists whose lookup
semantics match map indexing; mutable tree nodes are modelled as an arena
(a list of node records addressed by index).
-/

namespace Mates

/- ### Association-list helpers (model of Go maps) -/
/-- Lookup in an association list; models Go map indexing with the comma-ok
idiom. -/
def assocGet {β : Type} : List (String × β) → String → Option β
  | [], _ => none
  | (k, v) :: rest, key => if k = key then some v else assocGet rest key

/-- Insert or replace a binding; models Go map assignment. -/
def assocSet {β : Type} : List (String × β) → String → β → List (String × β)
  | [], key, v => [(key, v)]
  | (k, w) :: rest, key, v =>
    if k = key then (k, v) :: rest else (k, w) :: assocSet rest key v

/-- Remove a binding; models the Go delete builtin. -/
def assocDel {β : Type} : List (String × β) → String → List (String × β)
  | [], _ => []
  | (k, w) :: rest, key =>
    if k = key then rest else (k, w) :: assocDel rest key

/- ### Section modes (iota constants in the resolver source) -/
def sectionNormal : Nat := 0

def sectionMedia : Nat := 1

def sectionTable : Nat := 2

def sectionCode : Nat := 3

def sectionMath : Nat := 4

def sectionParagraph : Nat := 5

/- ### The grammar: tag, entity, style definitions -/
/-- ParentHood defines whether a tag can have child tags besides those tags
which explicitly claim the tag as parent. -/
inductive ParentHood where
  | noParentHood
  | rootParentHood
  | defaultRootParentHood
  | indentParentHood
  | textParentHood
deriving DecidableEq, Repr

/-- TagDefinition of a tag.  The HTMLTemplate, Resources and Config fields of
the source are opaque payloads that are never read by the scanner or the
resolver; they are omitted from the embedding. -/
structure TagDefinition where
  name : String
  defaultParent : Option String
  sectionMode : Nat
  possibleParents : List String
  counter : String
  resetCounter : List String
  defaultAttribute : String
  classShortcuts : List (String × String)
  parentHood : ParentHood
  firstChild : Bool
  allowedInParentHood : Bool
deriving DecidableEq, Repr

/-- EntityDefinition of an entity.  HTMLTemplate and Resources omitted as for
tags. -/
structure EntityDefinition where
  name : String
  counter : String
  classShortcuts : List (String × String)
deriving DecidableEq, Repr

/-- StyleDefinition of an inline style.  HTMLTemplate and Resources omitted as
for tags. -/
structure StyleDefinition where
  name : String
  classShortcuts : List (String × String)
deriving DecidableEq, Repr

/-- GrammarError is returned if a custom defined grammar is wrong. -/
structure GrammarError where
  text : String
deriving DecidableEq, Repr

/-- Grammar defines all tags and entities that can be used by a markdown file.
The Go field currentDefaultRoot is a pointer to a TagDefinition of which only
the Name field is ever read; it is modelled by that name. -/
structure Grammar where
  tags : List TagDefinition
  entities : List EntityDefinition
  styles : List StyleDefinition
  currentDefaultRoot : Option String
deriving DecidableEq, Repr

/-- The reverse-order scan of GetTag: the recursion gives priority to later
list entries, exactly as the Go loop that walks the slice from its end. -/
def getTagIn : List TagDefinition → String → Option TagDefinition
  | [], _ => none
  | t :: ts, n =>
    match getTagIn ts n with
    | some r => some r
    | none => if t.name = n then some t else none

/-- GetTag searches for a TagDefinition by its name, in reverse registration
order because tags can be overridden. -/
def Grammar.GetTag (grammar : Grammar) (tagname : String) : Option TagDefinition :=
  getTagIn grammar.tags tagname

/-- Forward scan used by GetEntity. -/
def getEntityIn : List EntityDefinition → String → Option EntityDefinition
  | [], _ => none
  | e :: es, n => if e.name = n then some e else getEntityIn es n

/-- GetEntity searches for an EntityDefinition by its name (forward scan). -/
def Grammar.GetEntity (grammar : Grammar) (entityname : String) : Option EntityDefinition :=
  getEntityIn grammar.entities entityname

/-- Forward scan used by GetStyle. -/
def getStyleIn : List StyleDefinition → String → Option StyleDefinition
  | [], _ => none
  | e :: es, n => if e.name = n then some e else getStyleIn es n

/-- GetStyle searches for a StyleDefinition by its name (forward scan). -/
def Grammar.GetStyle (grammar : Grammar) (stylename : String) : Option StyleDefinition :=
  getStyleIn grammar.styles stylename

/-- addBuiltinTag ignores the call if a tag of that name already exists. -/
def Grammar.addBuiltinTag (grammar : Grammar) (tag : TagDefinition) : Grammar :=
  if (grammar.GetTag tag.name).isSome then grammar
  else { grammar with tags := grammar.tags ++ [tag] }

/- The builtin tag definitions registered by loadBuiltinTags, with the exact
field values of the source literals. -/
def rootTag : TagDefinition :=
  { name := "#root", defaultParent := none, sectionMode := sectionNormal,
    possibleParents := [], counter := "", resetCounter := [],
    defaultAttribute := "", classShortcuts := [],
    parentHood := .rootParentHood, firstChild := false, allowedInParentHood := false }

def pTag : TagDefinition :=
  { name := "#p", defaultParent := none, sectionMode := sectionParagraph,
    possibleParents := [], counter := "", resetCounter := [],
    defaultAttribute := "", classShortcuts := [],
    parentHood := .textParentHood, firstChild := false, allowedInParentHood := true }

def ulTag : TagDefinition :=
  { name := "#ul", defaultParent := none, sectionMode := sectionNormal,
    possibleParents := [], counter := "", resetCounter := [],
    defaultAttribute := "", classShortcuts := [],
    parentHood := .indentParentHood, firstChild := false, allowedInParentHood := true }

def liTag : TagDefinition :=
  { name := "#li", defaultParent := some "#ul", sectionMode := sectionNormal,
    possibleParents := ["#ul", "#ol"], counter := "", resetCounter := [],
    defaultAttribute := "", classShortcuts := [],
    parentHood := .textParentHood, firstChild := false, allowedInParentHood := false }

def olTag : TagDefinition :=
  { name := "#ol", defaultParent := none, sectionMode := sectionNormal,
    possibleParents := [], counter := "", resetCounter := [],
    defaultAttribute := "", classShortcuts := [],
    parentHood := .indentParentHood, firstChild := false, allowedInParentHood := true }

def h1Tag : TagDefinition :=
  { name := "#", defaultParent := none, sectionMode := sectionNormal,
    possibleParents := [], counter := "", resetCounter := [],
    defaultAttribute := "", classShortcuts := [],
    parentHood := .textParentHood, firstChild := false, allowedInParentHood := true }

def h2Tag : TagDefinition := { h1Tag with name := "##" }

def h3Tag : TagDefinition := { h1Tag with name := "###" }

def h4Tag : TagDefinition := { h1Tag with name := "####" }

def tableTag : TagDefinition :=
  { name := "#table", defaultParent := none, sectionMode := sectionTable,
    possibleParents := [], counter := "Table", resetCounter := [],
    defaultAttribute := "", classShortcuts := [],
    parentHood := .noParentHood, firstChild := false, allowedInParentHood := true }

def tbodyTag : TagDefinition :=
  { name := "#tbody", defaultParent := some "#table", sectionMode := sectionTable,
    possibleParents := ["#table", "#pie", "#chart"], counter := "", resetCounter := [],
    defaultAttribute := "", classShortcuts := [],
    parentHood := .noParentHood, firstChild := false, allowedInParentHood := false }

def theadTag : TagDefinition := { tbodyTag with name := "#thead" }

def tbodyRowTag : TagDefinition :=
  { name := "#tbody-row", defaultParent := some "#tbody", sectionMode := sectionTable,
    possibleParents := ["#tbody"], counter := "", resetCounter := [],
    defaultAttribute := "", classShortcuts := [],
    parentHood := .noParentHood, firstChild := false, allowedInParentHood := false }

def theadRowTag : TagDefinition :=
  { name := "#thead-row", defaultParent := some "#thead", sectionMode := sectionTable,
    possibleParents := ["#thead"], counter := "", resetCounter := [],
    defaultAttribute := "", classShortcuts := [],
    parentHood := .noParentHood, firstChild := false, allowedInParentHood := false }

def tbodyCellTag : TagDefinition :=
  { name := "#tbody-cell", defaultParent := some "#tbody-row", sectionMode := sectionTable,
    possibleParents := ["#tbody-row"], counter := "", resetCounter := [],
    defaultAttribute := "", classShortcuts := [],
    parentHood := .textParentHood, firstChild := false, allowedInParentHood := false }

def theadCellTag : TagDefinition :=
  { name := "#thead-cell", defaultParent := some "#thead-row", sectionMode := sectionTable,
    possibleParents := ["#thead-row"], counter := "", resetCounter := [],
    defaultAttribute := "", classShortcuts := [],
    parentHood := .textParentHood, firstChild := false, allowedInParentHood := false }

def codeTag : TagDefinition :=
  { name := "#code", defaultParent := none, sectionMode := sectionCode,
    possibleParents := [], counter := "Sample", resetCounter := [],
    defaultAttribute := "class", classShortcuts := [],
    parentHood := .textParentHood, firstChild := false, allowedInParentHood := true }

def mathTag : TagDefinition :=
  { name := "#math", defaultParent := none, sectionMode := sectionMath,
    possibleParents := [], counter := "Equation", resetCounter := [],
    defaultAttribute := "", classShortcuts := [],
    parentHood := .textParentHood, firstChild := false, allowedInParentHood := true }

def bibTag : TagDefinition :=
  { name := "#bib", defaultParent := none, sectionMode := sectionNormal,
    possibleParents := [], counter := "bib", resetCounter := [],
    defaultAttribute := "label", classShortcuts := [],
    parentHood := .textParentHood, firstChild := false, allowedInParentHood := true }

def pieTag : TagDefinition :=
  { name := "#pie", defaultParent := none, sectionMode := sectionTable,
    possibleParents := [], counter := "Chart", resetCounter := [],
    defaultAttribute := "", classShortcuts := [],
    parentHood := .noParentHood, firstChild := false, allowedInParentHood := true }

def chartTag : TagDefinition := { pieTag with name := "#chart" }

def captionTag : TagDefinition :=
  { name := "#caption", defaultParent := none, sectionMode := sectionNormal,
    possibleParents := [], counter := "", resetCounter := [],
    defaultAttribute := "", classShortcuts := [],
    parentHood := .textParentHood, firstChild := false, allowedInParentHood := true }

def blockquoteTag : TagDefinition :=
  { name := ">", defaultParent := none, sectionMode := sectionNormal,
    possibleParents := [], counter := "", resetCounter := [],
    defaultAttribute := "", classShortcuts := [],
    parentHood := .indentParentHood, firstChild := false, allowedInParentHood := true }

def dlTag : TagDefinition :=
  { name := "#dl", defaultParent := none, sectionMode := sectionNormal,
    possibleParents := [], counter := "", resetCounter := [],
    defaultAttribute := "", classShortcuts := [],
    parentHood := .indentParentHood, firstChild := false, allowedInParentHood := true }

def dtTag : TagDefinition :=
  { name := "#dt", defaultParent := some "#dl", sectionMode := sectionNormal,
    possibleParents := ["#dl"], counter := "", resetCounter := [],
    defaultAttribute := "", classShortcuts := [],
    parentHood := .textParentHood, firstChild := false, allowedInParentHood := false }

def ddTag : TagDefinition :=
  { name := "#dd", defaultParent := some "#dl", sectionMode := sectionNormal,
    possibleParents := ["#dl"], counter := "", resetCounter := [],
    defaultAttribute := "", classShortcuts := [],
    parentHood := .indentParentHood, firstChild := false, allowedInParentHood := false }

/-- The builtin tags in registration order. -/
def builtinTags : List TagDefinition :=
  [rootTag, pTag, ulTag, liTag, olTag, h1Tag, h2Tag, h3Tag, h4Tag,
   tableTag, tbodyTag, theadTag, tbodyRowTag, theadRowTag, tbodyCellTag,
   theadCellTag, codeTag, mathTag, bibTag, pieTag, chartTag, captionTag,
   blockquoteTag, dlTag, dtTag, ddTag]

/-- loadBuiltinTags registers the builtin tags (no builtin entities or styles
are registered anywhere in the source). -/
def Grammar.loadBuiltinTags (grammar : Grammar) : Grammar :=
  builtinTags.foldl Grammar.addBuiltinTag grammar

/-- NewGrammar returns a new grammar. -/
def NewGrammar : Grammar :=
  Grammar.loadBuiltinTags { tags := [], entities := [], styles := [], currentDefaultRoot := none }

/-- The loop body of the default-root rewiring inside addCustomTag.  The Go
skip condition also contains a pointer comparison of the child against the
tag being added; that disjunct is subsumed by the ParentHood disjunct because
the added tag has DefaultRootParentHood, and this helper is only applied to
the tags that were present before the append. -/
def rewireForDefaultRoot (curRoot : Option String) (newName : String)
    (child : TagDefinition) : TagDefinition :=
  if (child.defaultParent.isSome ∧
        (curRoot.isNone ∨ child.defaultParent ≠ some (curRoot.getD "")))
      ∨ child.parentHood = ParentHood.defaultRootParentHood
      ∨ child.name = "#root" then
    child
  else
    { child with defaultParent := some newName,
                 possibleParents := newName :: child.possibleParents }

/-- The possible-parents validation loop of addCustomTag: the first parent
name for which GetTag fails. -/
def findUnknownParent (grammar : Grammar) : List String → Option String
  | [] => none
  | p :: ps => if (grammar.GetTag p).isNone then some p else findUnknownParent grammar ps

/-- The validation phase of addCustomTag: the default parent and each listed
possible parent are looked up in the grammar that already contains the
appended tag (the append happens on the very first line of the source
function); the first failure produces the returned GrammarError. -/
def Grammar.addCustomTagCheck (grammar : Grammar) (tag : TagDefinition) :
    Option GrammarError :=
  let g1 : Grammar := { grammar with tags := grammar.tags ++ [tag] }
  match (match tag.defaultParent with
         | some dp => if (g1.GetTag dp).isNone then some dp else none
         | none => none) with
  | some dp =>
    some ⟨"Unknown tag named " ++ dp ++ " is used as default parent for tag " ++ tag.name⟩
  | none =>
    (findUnknownParent g1 tag.possibleParents).map
      (fun p => ⟨"Unknown tag named " ++ p ++ " is used as possible parent for tag " ++ tag.name⟩)

/-- The successful tail of addCustomTag: derive allowedInParentHood, perform
the default-root rewiring of the previously registered tags, record the new
current default root, and let the added tag inherit the current default root
when it has no default parent of its own.  The added tag sits at the end of
the tag list. -/
def Grammar.addCustomTagOk (grammar : Grammar) (tag : TagDefinition) : Grammar :=
  let tagA :=
    if tag.defaultParent = none ∧ tag.name ≠ "#root" then
      { tag with allowedInParentHood := true }
    else tag
  let prefixTags :=
    if tag.parentHood = ParentHood.defaultRootParentHood then
      grammar.tags.map (rewireForDefaultRoot grammar.currentDefaultRoot tag.name)
    else grammar.tags
  let curRoot2 :=
    if tag.parentHood = ParentHood.defaultRootParentHood then some tag.name
    else grammar.currentDefaultRoot
  let tagB :=
    if curRoot2.isSome ∧ tagA.defaultParent = none ∧ tagA.name ≠ "#root" then
      { tagA with defaultParent := curRoot2 }
    else tagA
  { tags := prefixTags ++ [tagB], entities := grammar.entities,
    styles := grammar.styles, currentDefaultRoot := curRoot2 }

/-- addCustomTag appends the tag unconditionally, then validates, then applies
the side effects of a successful registration.  An error return leaves the
appended (unvalidated) tag in the grammar, exactly as in the source where the
append precedes the checks. -/
def Grammar.addCustomTag (grammar : Grammar) (tag : TagDefinition) :
    Grammar × Option GrammarError :=
  match grammar.addCustomTagCheck tag with
  | some e => ({ grammar with tags := grammar.tags ++ [tag] }, some e)
  | none => (grammar.addCustomTagOk tag, none)

/-- addCustomEntity is a simple append. -/
def Grammar.addCustomEntity (grammar : Grammar) (entity : EntityDefinition) : Grammar :=
  { grammar with entities := grammar.entities ++ [entity] }

/-- addCustomStyle is a simple append. -/
def Grammar.addCustomStyle (grammar : Grammar) (style : StyleDefinition) : Grammar :=
  { grammar with styles := grammar.styles ++ [style] }

/- ### The scanner (byte level): error recording for NUL and invalid UTF-8 -/
/-- The Unicode replacement character returned by the UTF-8 decoder on
malformed input. -/
def runeError : Int := 0xFFFD

/-- Faithful model of utf8.DecodeRune from the Go standard library: returns
the decoded rune and the number of bytes consumed; malformed or truncated
encodings (including surrogates and over-long forms) yield (runeError, 1),
an empty input yields (runeError, 0). -/
def decodeRune (bs : List Nat) : Int × Nat :=
  match bs with
  | [] => (runeError, 0)
  | b0 :: rest =>
    if b0 < 0x80 then ((b0 : Int), 1)
    else if b0 < 0xC2 then (runeError, 1)
    else if b0 < 0xE0 then
      match rest with
      | b1 :: _ =>
        if 0x80 ≤ b1 ∧ b1 ≤ 0xBF then
          (((b0 % 0x20) * 0x40 + (b1 % 0x40) : Nat), 2)
        else (runeError, 1)
      | [] => (runeError, 1)
    else if b0 < 0xF0 then
      let lo := if b0 = 0xE0 then 0xA0 else 0x80
      let hi := if b0 = 0xED then 0x9F else 0xBF
      match rest with
      | b1 :: rest2 =>
        if lo ≤ b1 ∧ b1 ≤ hi then
          match rest2 with
          | b2 :: _ =>
            if 0x80 ≤ b2 ∧ b2 ≤ 0xBF then
              (((b0 % 0x10) * 0x1000 + (b1 % 0x40) * 0x40 + (b2 % 0x40) : Nat), 3)
            else (runeError, 1)
          | [] => (runeError, 1)
        else (runeError, 1)
      | [] => (runeError, 1)
    else if b0 ≤ 0xF4 then
      let lo := if b0 = 0xF0 then 0x90 else 0x80
      let hi := if b0 = 0xF4 then 0x8F else 0xBF
      match rest with
      | b1 :: rest2 =>
        if lo ≤ b1 ∧ b1 ≤ hi then
          match rest2 with
          | b2 :: rest3 =>
            if 0x80 ≤ b2 ∧ b2 ≤ 0xBF then
              match rest3 with
              | b3 :: _ =>
                if 0x80 ≤ b3 ∧ b3 ≤ 0xBF then
                  (((b0 % 0x08) * 0x40000 + (b1 % 0x40) * 0x1000 +
                    (b2 % 0x40) * 0x40 + (b3 % 0x40) : Nat), 4)
                else (runeError, 1)
              | [] => (runeError, 1)
            else (runeError, 1)
          | [] => (runeError, 1)
        else (runeError, 1)
      | [] => (runeError, 1)
    else (runeError, 1)

/-- ScannerRange describes a position in the input markdown.  The Go fields
From and To are named fromOff and toOff here. -/
structure ScannerRange where
  fromLine : Nat
  fromLinePos : Nat
  fromOff : Nat
  toOff : Nat
deriving DecidableEq, Repr

/-- ScannerError reports a lexicographic error: an illegal character or a
malformed UTF-8 encoding. -/
structure ScannerError where
  pos : ScannerRange
  text : String
deriving DecidableEq, Repr

/-- Scanner state, restricted to the fields read and written by next; the
mode fields feed token production, which the resolver model consumes as an
abstract token stream. -/
structure Scanner where
  src : List Nat
  ch : Int
  offset : Nat
  readOffset : Nat
  lineOffset : Nat
  lineCount : Nat
  indent : Nat
  errors : List ScannerError
deriving DecidableEq, Repr

/-- The error method of the scanner: appends a ScannerError at the given
position. -/
def Scanner.recordError (s : Scanner) (line linepos off : Nat) (text : String) : Scanner :=
  { s with errors := s.errors ++ [⟨⟨line, linepos, off, off⟩, text⟩] }

/-- Scanner.next reads the next Unicode character: it moves offset to
readOffset, tracks line starts when the previous character was a newline,
records a non-fatal error for a NUL byte or an invalid UTF-8 encoding, and
always advances readOffset (ch becomes -1 at end of input). -/
def Scanner.next (s : Scanner) : Scanner :=
  if h : s.readOffset < s.src.length then
    let offset := s.readOffset
    let lineOffset := if s.ch = 10 then offset else s.lineOffset
    let lineCount := if s.ch = 10 then s.lineCount + 1 else s.lineCount
    let s1 := { s with offset := offset, lineOffset := lineOffset, lineCount := lineCount }
    let b := s.src.get ⟨s.readOffset, h⟩
    if b = 0 then
      let s2 := s1.recordError lineCount (offset - lineOffset) offset "illegal character NUL"
      { s2 with readOffset := s.readOffset + 1, ch := (b : Int) }
    else if 0x80 ≤ b then
      let rw := decodeRune (s.src.drop s.readOffset)
      let s2 :=
        if rw.1 = runeError ∧ rw.2 = 1 then
          s1.recordError lineCount (offset - lineOffset) offset "illegal UTF-8 encoding"
        else s1
      { s2 with readOffset := s.readOffset + rw.2, ch := rw.1 }
    else
      { s1 with readOffset := s.readOffset + 1, ch := (b : Int) }
  else
    let offset := s.src.length
    let lineOffset := if s.ch = 10 then offset else s.lineOffset
    let lineCount := if s.ch = 10 then s.lineCount + 1 else s.lineCount
    { s with offset := offset, lineOffset := lineOffset, lineCount := lineCount, ch := -1 }

/- ### The document tree

The source builds the tree from mutable, mutually referencing nodes.  The
embedding stores the document nodes in an arena (a list addressed by index);
Parent, PrevSibling, NextSibling and Children hold indices.  Inline style
nodes live in their own arena because they also own text children. -/
/-- A text-level child of a document node or of a style node: TextNode,
MathNode, CodeNode, EntityNode, or a reference to a StyleNode in the style
arena.  EntityNode carries its attributes, the counters snapshot and the
resolved definition. -/
inductive TextChild where
  | textNode (text : String)
  | mathNode (text : String)
  | codeNode (text : String)
  | entityNode (name : String) (value : String)
      (attributes : List (String × String)) (counters : List (String × Nat))
      (entityDefinition : EntityDefinition)
  | styleRef (sid : Nat)
deriving DecidableEq, Repr

/-- StyleNode represents inline CSS markup; restricted to the fields the
resolver writes (the non-owning Parent back-reference is implied by the
styleRef in the owner). -/
structure StyleNode where
  name : String
  styleDefinition : Option StyleDefinition
  attributes : List (String × String)
  value : String
  text : List TextChild
deriving DecidableEq, Repr

/-- DocumentNode: one node of the parsed document.  The Document
back-pointer, forced IDs, the Config map and the template context cache are
omitted (write-only or external-layer fields). -/
structure DocumentNode where
  tag : String
  tagDefinition : TagDefinition
  counters : List (String × Nat)
  parent : Option Nat
  nextSibling : Option Nat
  prevSibling : Option Nat
  children : List Nat
  text : List TextChild
  attributes : List (String × String)
  colspan : Nat
  indent : Nat
deriving DecidableEq, Repr

/-- Placeholder for a nil TagDefinition pointer.  Any dereference of it is
unreachable while the grammar holds the builtin tags. -/
def dummyTagDef : TagDefinition :=
  { name := "", defaultParent := none, sectionMode := sectionNormal, possibleParents := [],
    counter := "", resetCounter := [], defaultAttribute := "", classShortcuts := [],
    parentHood := .noParentHood, firstChild := false, allowedInParentHood := false }

/-- Fresh document node as allocated by newDocumentNode. -/
def mkDocumentNode (tag : String) (tagdef : TagDefinition) (indent : Nat) : DocumentNode :=
  { tag := tag, tagDefinition := tagdef, counters := [], parent := none,
    nextSibling := none, prevSibling := none, children := [], text := [],
    attributes := [], colspan := 0, indent := indent }

def dummyNode : DocumentNode := mkDocumentNode "" dummyTagDef 0

def dummyStyleNode : StyleNode :=
  { name := "", styleDefinition := none, attributes := [], value := "", text := [] }

/-- Entries of the warning log (log.Printf calls of the resolver); the
positional prefixes of the messages are not part of the token-level model. -/
inductive LogEntry where
  | unknownTagType (name : String)
  | unknownTag (name : String)
  | unknownEntity (name : String)
  | styleNotClosed (name : String)
  | closingStyleWithoutOpening (name : String)
  | mismatchedClosingStyle (name : String)
  | expectedStyleSpecification
  | noDefaultAttribute (name : String)
deriving DecidableEq, Repr

/-- The structured configuration block of a define directive, holding the
values the resolver extracts from the parsed YAML map (resource URLs are
resolved through an external callback and are not modelled). -/
structure DefineConfig where
  parents : List String
  counter : String
  resetCounters : List String
  defaultAttrib : String
  firstChild : Bool
  parentHood : ParentHood
  secMode : Nat
  shortStyles : List (String × String)
deriving DecidableEq, Repr

def defaultDefineConfig : DefineConfig :=
  { parents := [], counter := "", resetCounters := [], defaultAttrib := "",
    firstChild := false, parentHood := .noParentHood, secMode := sectionNormal,
    shortStyles := [] }

/-- Payload of a raw-configuration token: the YAML decoding of the raw text
is not modelled, so the token carries the decoded result; parseError stands
for any YAML-level failure (parse error, non-map document, ill-typed
attribute value). -/
inductive ConfigPayload where
  | parseError
  | emptyConfig
  | tagConfig (cfg : DefineConfig)
deriving DecidableEq, Repr

/-- The scanner tokens as consumed by the resolver.  Section and enum tokens
carry the indentation the scanner records when it recognizes them (the
scanner.indent field observed by the parser). -/
inductive Tok where
  | TokenSection (name : String) (indent : Nat)
  | TokenValue (s : String)
  | TokenEnum (marker : String) (indent : Nat)
  | TokenText (s : String)
  | TokenMathText (s : String)
  | TokenCodeText (s : String)
  | TokenStyle (s : String)
  | TokenEntity (s : String)
  | TokenConfigText (payload : ConfigPayload)
  | TokenTableCell (s : String)
  | TokenTableRow (s : String)
deriving DecidableEq, Repr

/-- Fatal resolver errors: the bad define sigil, a GrammarError from a define
directive, and configuration-block failures. -/
inductive ParseError where
  | badDefinePrefix
  | grammarError (e : GrammarError)
  | configError
deriving DecidableEq, Repr

/-- The complete resolver state of Parser.parse: the grammar handle, the
remaining tokens, the counters map, the node and style arenas, the parallel
open-tag and open-node stacks (innermost element first; the last element of
nodeStack is the root, index 0), the open-style stack, the current section
mode, the table body flag, the scanner indent as seen by the parser, and the
warning log. -/
structure PState where
  grammar : Grammar
  toks : List Tok
  counters : List (String × Nat)
  nodes : List DocumentNode
  styleNodes : List StyleNode
  tagStack : List TagDefinition
  nodeStack : List Nat
  styleStack : List Nat
  secmode : Nat
  tableInbody : Bool
  sIndent : Nat
  logs : List LogEntry
deriving DecidableEq, Repr

/-- Update one arena slot in place. -/
def listModify {α : Type} : List α → Nat → (α → α) → List α
  | [], _, _ => []
  | a :: as, 0, f => f a :: as
  | a :: as, n+1, f => a :: listModify as n f

def getNode (s : PState) (i : Nat) : DocumentNode :=
  s.nodes.getD i dummyNode

def setNodeF (s : PState) (i : Nat) (f : DocumentNode → DocumentNode) : PState :=
  { s with nodes := listModify s.nodes i f }

def getStyleNode (s : PState) (i : Nat) : StyleNode :=
  s.styleNodes.getD i dummyStyleNode

def setStyleF (s : PState) (i : Nat) (f : StyleNode → StyleNode) : PState :=
  { s with styleNodes := listModify s.styleNodes i f }

/- ### Counters -/
/-- incCounter: an empty name is ignored; an absent counter starts at 1, a
present one is incremented. -/
def incCounter (counter : String) (m : List (String × Nat)) : List (String × Nat) :=
  if counter = "" then m
  else
    match assocGet m counter with
    | none => assocSet m counter 1
    | some c => assocSet m counter (c + 1)

/-- resetCounter: delete every named counter from the running map. -/
def resetCounterList (rs : List String) (m : List (String × Nat)) : List (String × Nat) :=
  rs.foldl (fun acc c => assocDel acc c) m

/- ### Tree surgery -/
/-- appendChild: set the owning parent, link the new child after the current
last child, and append it to the children list. -/
def appendChild (s : PState) (parent child : Nat) : PState :=
  let s := setNodeF s child (fun c => { c with parent := some parent })
  match (getNode s parent).children.getLast? with
  | some childPrev =>
    let s := setNodeF s childPrev (fun c => { c with nextSibling := some child })
    let s := setNodeF s child (fun c => { c with prevSibling := some childPrev })
    setNodeF s parent (fun p => { p with children := p.children ++ [child] })
  | none => setNodeF s parent (fun p => { p with children := p.children ++ [child] })

/-- RemoveChild of the document model: remove the child from the children
list and clear its Parent pointer; the sibling links of the removed node and
of its former neighbours are left untouched, as in the source. -/
def removeChild (s : PState) (parent child : Nat) : PState :=
  if (getNode s parent).children.contains child then
    let s := setNodeF s parent (fun p => { p with children := p.children.erase child })
    setNodeF s child (fun c => { c with parent := none })
  else s

/- ### Styles -/
def styleLogName (s : PState) (sid : Nat) : String :=
  let n := (getStyleNode s sid).name
  if n = "" then "\x7b" else n

/-- closeStyles logs every still-open style (innermost first) and empties the
style stack. -/
def closeStyles (s : PState) : PState :=
  { s with
      logs := s.logs ++ s.styleStack.map (fun sid => LogEntry.styleNotClosed (styleLogName s sid)),
      styleStack := [] }

/-- closeStyle pops the innermost open style; an empty stack is logged.  The
star and underscore cases of the source switch carry dead mismatch checks;
the default case logs without popping when the name is not a closing
brace. -/
def closeStyle (s : PState) (styleName : String) : PState :=
  match s.styleStack with
  | [] => { s with logs := s.logs ++ [LogEntry.closingStyleWithoutOpening styleName] }
  | _ :: rest =>
    if styleName = "*" ∨ styleName = "_" then { s with styleStack := rest }
    else if styleName ≠ "\x7d" then
      { s with logs := s.logs ++ [LogEntry.mismatchedClosingStyle styleName] }
    else { s with styleStack := rest }

/- ### Stack surgery -/
/-- tagLevel: the innermost open tag equal to one of the two given
definitions, as an index from the top of the stack (the source returns the
index from the bottom; the two are interconvertible through the stack
length). -/
def tagLevel (s : PState) (tag tag2 : Option TagDefinition) : Option Nat :=
  s.tagStack.findIdx? (fun t => decide (tag = some t ∨ tag2 = some t))

/-- closeTags pops both stacks in lockstep until only `level` open tags
remain, after first closing all styles, and recomputes the section mode from
the new innermost tag. -/
def closeTags (s : PState) (level : Nat) : PState :=
  let s := closeStyles s
  let k := s.tagStack.length - level
  let tagStack := s.tagStack.drop k
  let nodeStack := s.nodeStack.drop k
  let secmode :=
    match tagStack with
    | [] => sectionNormal
    | t :: _ => t.sectionMode
  { s with tagStack := tagStack, nodeStack := nodeStack, secmode := secmode }

/-- closeTableCell: close up to and including the innermost open cell,
storing the colspan on the cell node first. -/
def closeTableCell (s : PState) (colspan : Nat) : PState :=
  let tag := s.grammar.GetTag "#tbody-cell"
  let tag2 := s.grammar.GetTag "#thead-cell"
  match tagLevel s tag tag2 with
  | some idx =>
    let s := setNodeF s (s.nodeStack.getD idx 0) (fun n => { n with colspan := colspan })
    closeTags s (s.tagStack.length - 1 - idx)
  | none => s

/-- closeTableRow: close the cell, then the row, and record that the header
has been left. -/
def closeTableRow (s : PState) (colspan : Nat) : PState :=
  let s := closeTableCell s colspan
  let tag := s.grammar.GetTag "#tbody-row"
  let tag2 := s.grammar.GetTag "#thead-row"
  let s :=
    match tagLevel s tag tag2 with
    | some idx => closeTags s (s.tagStack.length - 1 - idx)
    | none => s
  { s with tableInbody := true }

/- ### Node creation and pushing -/
/-- newDocumentNode allocates a fresh node for the named tag at the given
indent; an unknown tag name is logged and replaced by the paragraph
definition. -/
def newDocumentNode (s : PState) (tag : String) (indent : Nat) : PState × Nat :=
  match s.grammar.GetTag tag with
  | some tagdef =>
    ({ s with nodes := s.nodes ++ [mkDocumentNode tag tagdef indent] }, s.nodes.length)
  | none =>
    let s := { s with logs := s.logs ++ [LogEntry.unknownTagType tag] }
    let tagdef := (s.grammar.GetTag "#p").getD dummyTagDef
    ({ s with nodes := s.nodes ++ [mkDocumentNode tag tagdef indent] }, s.nodes.length)

/-- The unconditional tail of pushNodeOnStack: append the node to the
innermost open node, apply the counter-reset list of its tag, increment the
tag's own counter, snapshot the counters map onto the node (an association
list copy is the list itself), and push the tag and node on the parallel
stacks. -/
def pushFinal (s : PState) (nid : Nat) : PState :=
  let parentId := s.nodeStack.headD 0
  let s := appendChild s parentId nid
  let newCounters := incCounter (getNode s nid).tagDefinition.counter
      (resetCounterList (getNode s nid).tagDefinition.resetCounter s.counters)
  let s := { s with counters := newCounters }
  let s := setNodeF s nid (fun n => { n with counters := newCounters })
  { s with tagStack := (getNode s nid).tagDefinition :: s.tagStack,
           nodeStack := nid :: s.nodeStack }

/-- pushNodeOnStack: when the pushed tag demands to be the first child of a
parent that already has content (and that parent is not the root), the
parent is closed and a fresh sibling instance of the parent tag is pushed
first (the source recursion, which terminates because each round pops one
stack level; the fuel counts the stack height). -/
def pushNodeOnStackAux : Nat → PState → Nat → PState
  | 0, s, nid => pushFinal s nid
  | fuel+1, s, nid =>
    let parentId := s.nodeStack.headD 0
    let pN := getNode s parentId
    if (getNode s nid).tagDefinition.firstChild
        ∧ 0 < pN.text.length + pN.children.length
        ∧ pN.tagDefinition.name ≠ "#root" then
      let s := closeTags s (s.tagStack.length - 1)
      let res := newDocumentNode s pN.tagDefinition.name pN.indent
      let s := pushNodeOnStackAux fuel res.1 res.2
      pushFinal s nid
    else pushFinal s nid

def pushNodeOnStack (s : PState) (nid : Nat) : PState :=
  pushNodeOnStackAux (s.tagStack.length + 1) s nid

/- ### Parent fixing -/
/-- isPossibleParent: walk the default-parent chain of the child tag
(stopping at the root or at a missing default parent) and test whether the
given open node can host any chain member, either through its attachment
mode for block-scope members or through an explicit possible-parents entry;
the result is the chain depth of the first member that fits.  The fuel
bounds the chain walk (the source loops forever on a cyclic chain). -/
def isPossibleParentAux (g : Grammar) (parentN : DocumentNode) (childIndent : Nat) :
    Nat → Option TagDefinition → Nat → Option Nat
  | 0, _, _ => none
  | _+1, none, _ => none
  | fuel+1, some c, depth =>
    if c.allowedInParentHood ∧ parentN.tagDefinition.parentHood = ParentHood.indentParentHood
        ∧ parentN.indent < childIndent then some depth
    else if c.allowedInParentHood
        ∧ (parentN.tagDefinition.parentHood = ParentHood.defaultRootParentHood
            ∨ parentN.tagDefinition.parentHood = ParentHood.rootParentHood)
        ∧ parentN.indent ≤ childIndent then some depth
    else if c.possibleParents.contains parentN.tagDefinition.name then some depth
    else
      match c.defaultParent with
      | none => none
      | some dp =>
        if dp = "#root" then none
        else isPossibleParentAux g parentN childIndent fuel (g.GetTag dp) (depth + 1)

def isPossibleParent (s : PState) (parentN : DocumentNode) (child : TagDefinition)
    (childIndent : Nat) : Option Nat :=
  isPossibleParentAux s.grammar parentN childIndent (s.grammar.tags.length + 1) (some child) 0

/-- The default-parent chain of openTag2: the tag itself, then repeatedly
its default parent, stopping at the root or a tag with none; a dangling
default parent name falls back to the paragraph definition.  The fuel bounds
the walk. -/
def defaultChainAux (g : Grammar) : Nat → TagDefinition → List TagDefinition
  | 0, _ => []
  | fuel+1, p =>
    match p.defaultParent with
    | none => []
    | some dp =>
      if dp = "#root" then []
      else
        let p2 :=
          match g.GetTag dp with
          | some q => q
          | none => (g.GetTag "#p").getD dummyTagDef
        p2 :: defaultChainAux g fuel p2

def defaultChain (g : Grammar) (tag : TagDefinition) : List TagDefinition :=
  tag :: defaultChainAux g (g.tags.length + 1) tag

/-- The per-open-tag test of the openTag2 fixup loop: the index of the first
chain member that the open tag (with its node's indent) can host.  Note that
this variant, unlike isPossibleParent, applies no indent condition to the
root attachment modes. -/
def matchDefaultsIdx (defaults : List TagDefinition) (t : TagDefinition)
    (nIndent : Nat) (newIndent : Nat) : Option Nat :=
  defaults.findIdx? (fun d => decide (
    (d.allowedInParentHood ∧
      (t.parentHood = ParentHood.defaultRootParentHood
        ∨ t.parentHood = ParentHood.rootParentHood
        ∨ (t.parentHood = ParentHood.indentParentHood ∧ nIndent < newIndent)))
    ∨ d.possibleParents.contains t.name))

/-- The openTag2 fixup loop: scan the open tags innermost first, closing
every tag that cannot host a chain member, stopping at the first that can
(returning the insert depth); the fuel is the stack height. -/
def openTag2LoopAux : Nat → List TagDefinition → Nat → PState → PState × Option Nat
  | 0, _, _, s => (s, none)
  | fuel+1, defaults, newIndent, s =>
    match s.tagStack, s.nodeStack with
    | t :: _, nid :: _ =>
      match matchDefaultsIdx defaults t (getNode s nid).indent newIndent with
      | some j => (s, some j)
      | none => openTag2LoopAux fuel defaults newIndent (closeTags s (s.tagStack.length - 1))
    | _, _ => (s, none)

/-- Open the implicit default-parent ancestors between the insert depth and
the tag itself, innermost last, each with the indent of the new node. -/
def openDefaults : PState → List TagDefinition → Nat → Nat → PState
  | s, _, 0, _ => s
  | s, defaults, Nat.succ i, indent =>
    let d := defaults.getD (i + 1) dummyTagDef
    let res := newDocumentNode s d.name indent
    let s := pushNodeOnStack res.1 res.2
    openDefaults s defaults i indent

/-- openTag2: close the open styles, optionally fix the parents (computing
the default-parent chain, scanning and closing open tags, and opening the
needed implicit ancestors), push the node, and set the section mode. -/
def openTag2 (s : PState) (tag : TagDefinition) (nid : Nat) (fixParents : Bool) : PState :=
  let s := closeStyles s
  let s :=
    if fixParents then
      let defaults := defaultChain s.grammar tag
      let res := openTag2LoopAux s.tagStack.length defaults (getNode s nid).indent s
      let insertDepth := res.2.getD (defaults.length - 1)
      openDefaults res.1 defaults insertDepth (getNode res.1 nid).indent
    else s
  let s := pushNodeOnStack s nid
  { s with secmode := tag.sectionMode }

/- ### Attribute parsing -/
/-- First-colon split of a token string (the colon is ASCII, so byte and
character indexing agree). -/
def splitColonChars : List Char → Option (List Char × List Char)
  | [] => none
  | c :: cs =>
    if c = ':' then some ([], cs)
    else
      match splitColonChars cs with
      | some (a, b) => some (c :: a, b)
      | none => none

def splitAtColon (v : String) : Option (String × String) :=
  match splitColonChars v.toList with
  | some (a, b) => some (⟨a⟩, ⟨b⟩)
  | none => none

/-- One step of parseAttributes: an empty token, a leading colon, or a
trailing first colon is skipped; a proper key:value pair is stored; a bare
name is first translated through the tag's class shortcuts. -/
def attrOfValue (tag : Option TagDefinition) (v : String)
    (attrs : List (String × String)) : List (String × String) :=
  match splitAtColon v with
  | some (k, w) => if k = "" ∨ w = "" then attrs else assocSet attrs k w
  | none =>
    if v = "" then attrs
    else
      let name :=
        match tag with
        | some t =>
          match assocGet t.classShortcuts v with
          | some n => n
          | none => v
        | none => v
      assocSet attrs name ""

/-- parseAttributes consumes the maximal prefix of value tokens, building the
attribute map. -/
def parseAttributes (tag : Option TagDefinition) :
    List Tok → List (String × String) → (List (String × String) × List Tok)
  | Tok.TokenValue v :: rest, attrs => parseAttributes tag rest (attrOfValue tag v attrs)
  | toks, attrs => (attrs, toks)

/- ### Content handlers -/
/-- The parent() helper: the innermost open style if any, otherwise the
innermost open node; append the text child there. -/
def appendTextToParent (s : PState) (tc : TextChild) : PState :=
  match s.styleStack with
  | sid :: _ => setStyleF s sid (fun st => { st with text := st.text ++ [tc] })
  | [] =>
    match s.nodeStack with
    | nid :: _ => setNodeF s nid (fun n => { n with text := n.text ++ [tc] })
    | [] => s

/-- openTableCell: if no cell is open, open a body or header cell depending
on whether a row delimiter has been seen. -/
def openTableCell (s : PState) : PState :=
  if (tagLevel s (s.grammar.GetTag "#tbody-cell") (s.grammar.GetTag "#thead-cell")).isSome then s
  else
    let tag :=
      if s.tableInbody then (s.grammar.GetTag "#tbody-cell").getD dummyTagDef
      else (s.grammar.GetTag "#thead-cell").getD dummyTagDef
    let res := newDocumentNode s tag.name s.sIndent
    openTag2 res.1 tag res.2 true

/-- openTag: allocate the node at the scanner indent, parse the trailing
attribute tokens, and open with parent fixing. -/
def openTag (s : PState) (tag : TagDefinition) : PState × Nat :=
  let res := newDocumentNode s tag.name s.sIndent
  let s := res.1
  let nid := res.2
  let ats := parseAttributes (some tag) s.toks []
  let s := { s with toks := ats.2 }
  let s := setNodeF s nid (fun n => { n with attributes := ats.1 })
  (openTag2 s tag nid true, nid)

/-- The text-append step followed by the paragraph-to-definition-list
rewrite: when the receiving node is a paragraph, the innermost open tag is
in paragraph mode and the appended text ends in a colon, the paragraph is
closed and detached and its text is reused for a term node and a description
node. -/
def textAppendAndRewrite (s : PState) (pid : Nat) (str : String) : PState :=
  let s := setNodeF s pid (fun n => { n with text := n.text ++ [TextChild.textNode str] })
  if (getNode s pid).tagDefinition.name = "#p" then
    match s.tagStack with
    | [] => s
    | t :: _ =>
      if t.sectionMode = sectionParagraph ∧ 0 < str.length ∧ str.back = ':' then
        let s := closeTags s (s.tagStack.length - 1)
        let s :=
          match (getNode s pid).parent with
          | some par => removeChild s par pid
          | none => s
        let res := newDocumentNode s "#dt" (getNode s pid).indent
        let s := setNodeF res.1 res.2 (fun n => { n with text := (getNode res.1 pid).text })
        let s := openTag2 s (getNode s res.2).tagDefinition res.2 true
        let s := closeTags s (s.tagStack.length - 1)
        let res2 := newDocumentNode s "#dd" (getNode s pid).indent
        let s := setNodeF res2.1 res2.2 (fun n => { n with text := (getNode res2.1 pid).text })
        openTag2 s (getNode s res2.2).tagDefinition res2.2 true
      else s
  else s

/-- The inline lazy table-cell opening shared by the content token cases:
open a cell when the section mode is table. -/
def tableCellAdjusted (s : PState) : PState :=
  if s.secmode = sectionTable then openTableCell s else s

/-- The body of the TokenText case after the lazy cell opening: ignore text
in media mode, reparent non-blank text under a fresh paragraph when the
innermost node cannot hold text, append, and apply the definition-list
rewrite. -/
def handleTextTail (s : PState) (str : String) : PState :=
  if s.secmode = sectionMedia then s
  else
    match s.styleStack with
    | sid :: _ => setStyleF s sid (fun st => { st with text := st.text ++ [TextChild.textNode str] })
    | [] =>
      match s.nodeStack with
      | [] => s
      | nid :: _ =>
        if (getNode s nid).tagDefinition.parentHood ≠ ParentHood.textParentHood then
          if str.trim.length = 0 then s
          else
            let res := newDocumentNode s "#p" ((getNode s nid).indent + 1)
            let s := openTag2 res.1 (getNode res.1 res.2).tagDefinition res.2 true
            textAppendAndRewrite s res.2 str
        else textAppendAndRewrite s nid str

/-- The TokenText case. -/
def handleText (s : PState) (str : String) : PState :=
  handleTextTail (tableCellAdjusted s) str

/-- The body of the TokenMathText case. -/
def handleMathTextTail (s : PState) (str : String) : PState :=
  if s.secmode = sectionMedia then s
  else appendTextToParent s (TextChild.mathNode str)

/-- The TokenMathText case. -/
def handleMathText (s : PState) (str : String) : PState :=
  handleMathTextTail (tableCellAdjusted s) str

/-- The body of the TokenCodeText case. -/
def handleCodeTextTail (s : PState) (str : String) : PState :=
  if s.secmode = sectionMedia then s
  else appendTextToParent s (TextChild.codeNode str)

/-- The TokenCodeText case. -/
def handleCodeText (s : PState) (str : String) : PState :=
  handleCodeTextTail (tableCellAdjusted s) str

/-- Allocate a style node, append a reference to it at the current parent,
and open it on the style stack. -/
def pushStyle (s : PState) (st : StyleNode) : PState :=
  let sid := s.styleNodes.length
  let s := { s with styleNodes := s.styleNodes ++ [st] }
  let s := appendTextToParent s (TextChild.styleRef sid)
  { s with styleStack := sid :: s.styleStack }

/-- The attribute loop after a named style: raw colon splits with no skip
conditions and no shortcut translation. -/
def styleAttrsOfValues : List Tok → List (String × String) → (List (String × String) × List Tok)
  | Tok.TokenValue v :: rest, attrs =>
    match splitAtColon v with
    | some (k, w) => styleAttrsOfValues rest (assocSet attrs k w)
    | none => styleAttrsOfValues rest (assocSet attrs v "")
  | toks, attrs => (attrs, toks)

/-- The body of the TokenStyle case: a closing brace pops; a star or
underscore toggles; an opening brace expects a value token naming the style,
which is resolved in the grammar — an unknown name becomes an anonymous
"-css-" style node holding the name:value pair as an attribute. -/
def handleStyleTokTail (s : PState) (str : String) : PState :=
  if str = "\x7d" then closeStyle s "\x7d"
  else if str = "*" then
    let topIsStar : Bool :=
      match s.styleStack with
      | sid :: _ => decide ((getStyleNode s sid).name = "*")
      | [] => false
    if topIsStar then closeStyle s "*"
    else pushStyle s { name := "*", styleDefinition := none, attributes := [], value := "", text := [] }
  else if str = "_" then
    let topIsUnderscore : Bool :=
      match s.styleStack with
      | sid :: _ => decide ((getStyleNode s sid).name = "_")
      | [] => false
    if topIsUnderscore then closeStyle s "_"
    else pushStyle s { name := "_", styleDefinition := none, attributes := [], value := "", text := [] }
  else
    match s.toks with
    | Tok.TokenValue v :: rest =>
      let s := { s with toks := rest }
      let nv :=
        match splitAtColon v with
        | some (a, b) => (a, b)
        | none => (v, "")
      let st : StyleNode :=
        match s.grammar.GetStyle nv.1 with
        | none =>
          { name := "-css-", styleDefinition := none,
            attributes := [(nv.1, nv.2)], value := "", text := [] }
        | some styledef =>
          { name := nv.1, styleDefinition := some styledef,
            attributes := [], value := nv.2, text := [] }
      let sid := s.styleNodes.length
      let s := pushStyle s st
      let ats := styleAttrsOfValues s.toks (getStyleNode s sid).attributes
      let s := { s with toks := ats.2 }
      setStyleF s sid (fun stn => { stn with attributes := ats.1 })
    | _ => { s with logs := s.logs ++ [LogEntry.expectedStyleSpecification] }

/-- The TokenStyle case. -/
def handleStyleTok (s : PState) (str : String) : PState :=
  handleStyleTokTail (tableCellAdjusted s) str

/-- The TokenEntity case: parse name, value and attributes, look the entity
up; an unknown entity is logged and nothing is emitted; a known one
increments its counter and is appended with a counters snapshot. -/
def handleEntityTokTail (s : PState) (str : String) : PState :=
  let nv :=
    match splitAtColon str with
    | some (a, b) => (a, b)
    | none => (str, "")
  let ats := parseAttributes none s.toks []
  let s := { s with toks := ats.2 }
  match s.grammar.GetEntity nv.1 with
  | none => { s with logs := s.logs ++ [LogEntry.unknownEntity nv.1] }
  | some edef =>
    let s := { s with counters := incCounter edef.counter s.counters }
    appendTextToParent s (TextChild.entityNode nv.1 nv.2 ats.1 s.counters edef)

/-- The TokenEntity case. -/
def handleEntityTok (s : PState) (str : String) : PState :=
  handleEntityTokTail (tableCellAdjusted s) str

/- ### The enum (list marker) handler -/
/-- The scan of the TokenEnum case over the open stacks, innermost first:
the first open node that isPossibleParent accepts for the list container
stops the scan; on the way, the outermost open #ul or #ol whose indent is at
least the marker indent is remembered as a sibling candidate.  Indices are
from the top of the stack. -/
def enumScanAux (s : PState) (enumTag : TagDefinition) (indent : Nat) :
    List TagDefinition → List Nat → Nat → Option Nat → Option Nat × Option Nat
  | t :: ts, nid :: ns, i, sib =>
    let nN := getNode s nid
    match isPossibleParent s nN enumTag indent with
    | some _ => (some i, sib)
    | none =>
      let sib2 := if indent ≤ nN.indent ∧ (t.name = "#ul" ∨ t.name = "#ol") then some i else sib
      enumScanAux s enumTag indent ts ns (i + 1) sib2
  | _, _, _, sib => (none, sib)

/-- The TokenEnum case: prefer continuing a sibling list (reusing it when the
marker kind matches, else reopening at that spot), else attach a fresh list
container under the found parent, else close everything and open the list at
the top; then push the list item with no parent fixing. -/
def handleEnum (s : PState) (marker : String) (indent : Nat) : PState :=
  let tag := (s.grammar.GetTag "#li").getD dummyTagDef
  let enumTag :=
    if marker = "-" then (s.grammar.GetTag "#ul").getD dummyTagDef
    else (s.grammar.GetTag "#ol").getD dummyTagDef
  let scanRes := enumScanAux s enumTag indent s.tagStack s.nodeStack 0 none
  let s :=
    match scanRes.2 with
    | some sibIdx =>
      if s.tagStack.getD sibIdx dummyTagDef = enumTag then
        let s := closeTags s (s.tagStack.length - sibIdx)
        setNodeF s (s.nodeStack.headD 0) (fun n => { n with indent := indent })
      else
        let s := closeTags s (s.tagStack.length - 1 - sibIdx)
        let res := newDocumentNode s enumTag.name indent
        openTag2 res.1 enumTag res.2 true
    | none =>
      match scanRes.1 with
      | some pIdx =>
        let s := closeTags s (s.tagStack.length - pIdx)
        let res := newDocumentNode s enumTag.name indent
        openTag2 res.1 enumTag res.2 true
      | none =>
        let s := closeTags s 0
        let res := newDocumentNode s enumTag.name indent
        openTag2 res.1 enumTag res.2 true
  let res2 := newDocumentNode s tag.name indent
  let s := res2.1
  let ats := parseAttributes (some tag) s.toks []
  let s := { s with toks := ats.2 }
  let s := setNodeF s res2.2 (fun n => { n with attributes := ats.1 })
  openTag2 s tag res2.2 false

/- ### Section and define handlers -/
/-- Consume the template-text tokens following a define directive (the
template body is an opaque payload). -/
def dropCodeTextPrefix : List Tok → List Tok
  | Tok.TokenCodeText _ :: rest => dropCodeTextPrefix rest
  | toks => toks

/-- Take the configuration payload of a define directive from the token
stream: a non-config token means no configuration. -/
def takeConfig (toks : List Tok) : Option ConfigPayload × List Tok :=
  match toks with
  | Tok.TokenConfigText p :: rest => (some p, rest)
  | rest => (none, rest)

/-- Outcome of one resolver step: a new state, a fatal error, or the
infinite loop the source enters on a token kind without a switch case. -/
inductive StepOut where
  | ok (s : PState)
  | err (e : ParseError)
  | stuck
deriving DecidableEq, Repr

/-- The define-tag directive: read the configuration, drop the template
text, build the TagDefinition (the first listed parent doubling as the
default parent) and register it; a configuration failure or a GrammarError
aborts the parse. -/
def handleDefineTag (s : PState) (sectionName : String) : StepOut :=
  let cfg := takeConfig s.toks
  match cfg.1 with
  | some ConfigPayload.parseError => .err ParseError.configError
  | other =>
    let dc :=
      match other with
      | some (ConfigPayload.tagConfig c) => c
      | _ => defaultDefineConfig
    let toks2 := dropCodeTextPrefix cfg.2
    let tagDef : TagDefinition :=
      { name := sectionName, defaultParent := dc.parents.head?,
        sectionMode := dc.secMode, possibleParents := dc.parents,
        counter := dc.counter, resetCounter := dc.resetCounters,
        defaultAttribute := dc.defaultAttrib, classShortcuts := dc.shortStyles,
        parentHood := dc.parentHood, firstChild := dc.firstChild,
        allowedInParentHood := false }
    match s.grammar.addCustomTag tagDef with
    | (_, some e) => .err (ParseError.grammarError e)
    | (g2, none) => .ok { s with grammar := g2, toks := toks2 }

/-- The define-entity directive. -/
def handleDefineEntity (s : PState) (entityName : String) : StepOut :=
  let cfg := takeConfig s.toks
  match cfg.1 with
  | some ConfigPayload.parseError => .err ParseError.configError
  | other =>
    let dc :=
      match other with
      | some (ConfigPayload.tagConfig c) => c
      | _ => defaultDefineConfig
    let toks2 := dropCodeTextPrefix cfg.2
    .ok { s with
            grammar := s.grammar.addCustomEntity
              { name := entityName, counter := dc.counter, classShortcuts := dc.shortStyles },
            toks := toks2 }

/-- The define-style directive. -/
def handleDefineStyle (s : PState) (styleName : String) : StepOut :=
  let cfg := takeConfig s.toks
  match cfg.1 with
  | some ConfigPayload.parseError => .err ParseError.configError
  | other =>
    let dc :=
      match other with
      | some (ConfigPayload.tagConfig c) => c
      | _ => defaultDefineConfig
    let toks2 := dropCodeTextPrefix cfg.2
    .ok { s with
            grammar := s.grammar.addCustomStyle
              { name := styleName, classShortcuts := dc.shortStyles },
            toks := toks2 }

/-- An ordinary section token: split a trailing default-attribute value,
look the tag up (an unknown tag is logged and falls back to the paragraph
definition), open it, store the default attribute value, and reset the
table-body flag for table tags.  The scanner-layout switches of the source
only steer token production and have no counterpart in the token-level
model. -/
def handleNormalSection (s : PState) (name : String) : PState :=
  let split :=
    match splitAtColon name with
    | some (a, b) => (a, some b)
    | none => (name, none)
  let tagname := split.1
  let ts :=
    match s.grammar.GetTag tagname with
    | some t => (t, s)
    | none =>
      (((s.grammar.GetTag "#p").getD dummyTagDef),
        { s with logs := s.logs ++ [LogEntry.unknownTag tagname] })
  let tag := ts.1
  let s := ts.2
  let res := openTag s tag
  let s := res.1
  let s :=
    match split.2 with
    | some v =>
      if tag.defaultAttribute = "" then
        { s with logs := s.logs ++ [LogEntry.noDefaultAttribute tagname] }
      else setNodeF s res.2 (fun n => { n with attributes := assocSet n.attributes tag.defaultAttribute v })
    | none => s
  if tag.sectionMode = sectionTable then { s with tableInbody := false } else s

/- ### The main loop -/
/-- One iteration of the main loop of Parser.parse, given the current token
(already removed from the stream held in the state). -/
def parseStep1 (s : PState) (tok : Tok) : StepOut :=
  match tok with
  | Tok.TokenSection name indent =>
    let s := { s with sIndent := indent }
    if name.startsWith "#define:#" then handleDefineTag s (name.drop 8)
    else if name.startsWith "#define:~" then handleDefineEntity s (name.drop 9)
    else if name.startsWith "#define:\x7b" then handleDefineStyle s (name.drop 9)
    else if name.startsWith "#define:" then .err ParseError.badDefinePrefix
    else .ok (handleNormalSection s name)
  | Tok.TokenValue _ => .stuck
  | Tok.TokenEnum marker indent => .ok (handleEnum { s with sIndent := indent } marker indent)
  | Tok.TokenText str => .ok (handleText s str)
  | Tok.TokenMathText str => .ok (handleMathText s str)
  | Tok.TokenCodeText str => .ok (handleCodeText s str)
  | Tok.TokenStyle str => .ok (handleStyleTok s str)
  | Tok.TokenEntity str => .ok (handleEntityTok s str)
  | Tok.TokenConfigText _ => .ok s
  | Tok.TokenTableCell str => .ok (openTableCell (closeTableCell s str.length))
  | Tok.TokenTableRow str => .ok (closeTableRow s str.length)

/-- Outcome of the whole parse: the final state at end of input, a fatal
error, the infinite loop on an uncased token, or exhausted fuel. -/
inductive ParseOutcome where
  | done (s : PState)
  | fail (e : ParseError)
  | stuck
  | fuelOut
deriving DecidableEq, Repr

/-- The main loop of Parser.parse: consume tokens until end of input, then
close all open tags. -/
def parseLoop : Nat → PState → ParseOutcome
  | 0, _ => .fuelOut
  | fuel+1, s =>
    match s.toks with
    | [] => .done (closeTags s 0)
    | tok :: rest =>
      match parseStep1 { s with toks := rest } tok with
      | .ok s2 => parseLoop fuel s2
      | .err e => .fail e
      | .stuck => .stuck

/-- NewDocument creates the synthetic root node. -/
def NewDocument (g : Grammar) : DocumentNode :=
  { tag := "Root", tagDefinition := (g.GetTag "#root").getD dummyTagDef, counters := [],
    parent := none, nextSibling := none, prevSibling := none, children := [], text := [],
    attributes := [], colspan := 0, indent := 0 }

/-- The state NewParser sets up: empty counters, the root alone in the arena
and on the node stack, an empty tag stack. -/
def initState (g : Grammar) (toks : List Tok) : PState :=
  { grammar := g, toks := toks, counters := [], nodes := [NewDocument g], styleNodes := [],
    tagStack := [], nodeStack := [0], styleStack := [], secmode := sectionNormal,
    tableInbody := false, sIndent := 0, logs := [] }

/-- Parse a token stream from the initial state. -/
def parse (fuel : Nat) (g : Grammar) (toks : List Tok) : ParseOutcome :=
  parseLoop fuel (initState g toks)

/-- Errors surfaced by ParseMarkdown: the first recorded scanner error or the
error of parse. -/
inductive MdError where
  | scanErr (e : ScannerError)
  | parseErr (e : ParseError)
deriving DecidableEq, Repr

/-- ParseMarkdown, after parse has returned its document and error: a
non-empty scanner error list yields no document and the first recorded
scanner error; otherwise a parse error yields no document and that error;
otherwise the document is returned. -/
def ParseMarkdownGlue (doc : Option PState) (err : Option ParseError)
    (scanErrors : List ScannerError) : Option PState × Option MdError :=
  match scanErrors with
  | e :: _ => (none, some (MdError.scanErr e))
  | [] =>
    match err with
    | some pe => (none, some (MdError.parseErr pe))
    | none => (doc, none)

/-- Well-formedness of the resolver state: the node stack is one taller than
the tag stack and its bottom element is the root (arena index 0). -/
def wf (s : PState) : Prop :=
  s.nodeStack.length = s.tagStack.length + 1 ∧ s.nodeStack.getLast? = some 0

/-- C6 counterexample helpers: two entity definitions sharing one name. -/
def dupEntityA : EntityDefinition := { name := "dup", counter := "first", classShortcuts := [] }

def dupEntityB : EntityDefinition := { name := "dup", counter := "second", classShortcuts := [] }

/-- A tag used in the C7 witness whose default parent is unknown. -/
def c7BadTag : TagDefinition :=
  { liTag with name := "#custom1", defaultParent := some "#nosuch", possibleParents := [] }

/-- A tag used in the C7 witness whose parent names all resolve. -/
def c7GoodTag : TagDefinition :=
  { liTag with name := "#custom2", defaultParent := some "#ul", possibleParents := ["#ul"] }

/-- A default-root tag used in the C8 witness. -/
def pageTag : TagDefinition :=
  { name := "#page", defaultParent := none, sectionMode := sectionNormal,
    possibleParents := [], counter := "", resetCounter := [],
    defaultAttribute := "", classShortcuts := [],
    parentHood := .defaultRootParentHood, firstChild := false, allowedInParentHood := false }

/-- A later tag used in the C8 witness, with no explicit default parent. -/
def c8LaterTag : TagDefinition := { pageTag with name := "#sec", parentHood := .noParentHood }

/-- A tag with an unknown default parent used in the C10 witness. -/
def c10BadTag : TagDefinition :=
  { liTag with name := "#broken", defaultParent := some "#zzz", possibleParents := [] }

/-- A tag that names itself as its own default parent, used in the C10
witness. -/
def c10SelfTag : TagDefinition :=
  { liTag with name := "#self", defaultParent := some "#self", possibleParents := [] }

def c3NulScanner : Scanner :=
  { src := [65, 0, 66], ch := 65, offset := 0, readOffset := 1, lineOffset := 0,
    lineCount := 0, indent := 0, errors := [] }

def c3Utf8Scanner : Scanner :=
  { src := [0xFF, 65], ch := 10, offset := 0, readOffset := 0, lineOffset := 0,
    lineCount := 0, indent := 0, errors := [] }

def c9State : PState :=
  { grammar := NewGrammar, toks := [], counters := [],
    nodes := [mkDocumentNode "#root" dummyTagDef 0, mkDocumentNode "#p" dummyTagDef 0,
      mkDocumentNode "#p" dummyTagDef 0],
    styleNodes := [], tagStack := [], nodeStack := [0], styleStack := [],
    secmode := sectionNormal, tableInbody := false, sIndent := 0, logs := [] }

def nameOfValue (v : String) : String × String :=
  match splitAtColon v with
  | some q => q
  | none => (v, "")

/- C1 development -/
def enumContainerStep (s : PState) (marker : String) (indent : Nat) : PState :=
  let enumTag :=
    if marker = "-" then (s.grammar.GetTag "#ul").getD dummyTagDef
    else (s.grammar.GetTag "#ol").getD dummyTagDef
  let scanRes := enumScanAux s enumTag indent s.tagStack s.nodeStack 0 none
  match scanRes.2 with
  | some sibIdx =>
    if s.tagStack.getD sibIdx dummyTagDef = enumTag then
      let s := closeTags s (s.tagStack.length - sibIdx)
      setNodeF s (s.nodeStack.headD 0) (fun n => { n with indent := indent })
    else
      let s := closeTags s (s.tagStack.length - 1 - sibIdx)
      let res := newDocumentNode s enumTag.name indent
      openTag2 res.1 enumTag res.2 true
  | none =>
    match scanRes.1 with
    | some pIdx =>
      let s := closeTags s (s.tagStack.length - pIdx)
      let res := newDocumentNode s enumTag.name indent
      openTag2 res.1 enumTag res.2 true
    | none =>
      let s := closeTags s 0
      let res := newDocumentNode s enumTag.name indent
      openTag2 res.1 enumTag res.2 true

def enumItemStep (s : PState) (tag : TagDefinition) (indent : Nat) : PState :=
  let res2 := newDocumentNode s tag.name indent
  let s := res2.1
  let ats := parseAttributes (some tag) s.toks []
  let s := { s with toks := ats.2 }
  let s := setNodeF s res2.2 (fun n => { n with attributes := ats.1 })
  openTag2 s tag res2.2 false

def c1Container (m : String) : TagDefinition :=
  if m = "-" then ulTag else olTag

def c1State1 (g : Grammar) (m : String) (i : Nat) : PState :=
  { grammar := g, toks := [], counters := [],
    nodes := [ { tag := "Root", tagDefinition := rootTag, counters := [], parent := none,
                 nextSibling := none, prevSibling := none, children := [1], text := [],
                 attributes := [], colspan := 0, indent := 0 },
               { tag := (c1Container m).name, tagDefinition := c1Container m, counters := [],
                 parent := some 0, nextSibling := none, prevSibling := none, children := [2],
                 text := [], attributes := [], colspan := 0, indent := i },
               { tag := "#li", tagDefinition := liTag, counters := [], parent := some 1,
                 nextSibling := none, prevSibling := none, children := [], text := [],
                 attributes := [], colspan := 0, indent := i } ],
    styleNodes := [], tagStack := [liTag, c1Container m], nodeStack := [2, 1, 0],
    styleStack := [], secmode := sectionNormal, tableInbody := false, sIndent := 0,
    logs := [] }

def c1LiNode (i : Nat) : DocumentNode :=
  { tag := "#li", tagDefinition := liTag, counters := [], parent := some 1,
    nextSibling := none, prevSibling := none, children := [], text := [],
    attributes := [], colspan := 0, indent := i }

def c1UlNode (m : String) (i : Nat) : DocumentNode :=
  { tag := (c1Container m).name, tagDefinition := c1Container m, counters := [],
    parent := some 0, nextSibling := none, prevSibling := none, children := [2],
    text := [], attributes := [], colspan := 0, indent := i }

def c1RootNode : DocumentNode :=
  { tag := "Root", tagDefinition := rootTag, counters := [], parent := none,
    nextSibling := none, prevSibling := none, children := [1], text := [],
    attributes := [], colspan := 0, indent := 0 }

def c1NewUlNode (m : String) (i2 : Nat) : DocumentNode :=
  { tag := (c1Container m).name, tagDefinition := c1Container m, counters := [],
    parent := some 1, nextSibling := none, prevSibling := some 2, children := [],
    text := [], attributes := [], colspan := 0, indent := i2 }

def c1StateB (g : Grammar) (m : String) (i1 i2 : Nat) : PState :=
  { grammar := g, toks := [], counters := [],
    nodes := [c1RootNode, c1UlNode m i1, c1LiNode i1,
      mkDocumentNode (c1Container m).name (c1Container m) i2],
    styleNodes := [], tagStack := [c1Container m], nodeStack := [1, 0], styleStack := [],
    secmode := sectionNormal, tableInbody := false, sIndent := 0, logs := [] }

def c1AfterUl (g : Grammar) (m : String) (i1 i2 : Nat) : PState :=
  { grammar := g, toks := [], counters := [],
    nodes := [c1RootNode, { c1UlNode m i1 with children := [2, 3] },
      { c1LiNode i1 with nextSibling := some 3 }, c1NewUlNode m i2],
    styleNodes := [], tagStack := [c1Container m, c1Container m], nodeStack := [3, 1, 0],
    styleStack := [], secmode := sectionNormal, tableInbody := false, sIndent := 0,
    logs := [] }

def c1AfterClose (g : Grammar) (m : String) (i1 : Nat) : PState :=
  { grammar := g, toks := [], counters := [],
    nodes := [c1RootNode, c1UlNode m i1, c1LiNode i1],
    styleNodes := [], tagStack := [c1Container m], nodeStack := [1, 0], styleStack := [],
    secmode := sectionNormal, tableInbody := false, sIndent := 0, logs := [] }

def c1Strict (g : Grammar) (m : String) (i1 i2 : Nat) : PState :=
  { grammar := g, toks := [], counters := [],
    nodes := [c1RootNode, { c1UlNode m i1 with children := [2, 3] },
      { c1LiNode i1 with nextSibling := some 3 },
      { c1NewUlNode m i2 with children := [4] },
      { c1LiNode i2 with parent := some 3 }],
    styleNodes := [], tagStack := [liTag, c1Container m, c1Container m],
    nodeStack := [4, 3, 1, 0], styleStack := [], secmode := sectionNormal,
    tableInbody := false, sIndent := 0, logs := [] }

/- equal indent, same marker -/
def c1Equal (g : Grammar) (m : String) (i : Nat) : PState :=
  { grammar := g, toks := [], counters := [],
    nodes := [c1RootNode, { c1UlNode m i with children := [2, 3] },
      { c1LiNode i with nextSibling := some 3 },
      { c1LiNode i with prevSibling := some 2 }],
    styleNodes := [], tagStack := [liTag, c1Container m], nodeStack := [3, 1, 0],
    styleStack := [], secmode := sectionNormal, tableInbody := false, sIndent := 0,
    logs := [] }

/- mixed markers at equal indent: a separate container is opened under the root -/
def c1MixedClosed (g : Grammar) (i : Nat) : PState :=
  { grammar := g, toks := [], counters := [],
    nodes := [c1RootNode, c1UlNode "-" i, c1LiNode i],
    styleNodes := [], tagStack := [], nodeStack := [0], styleStack := [],
    secmode := sectionNormal, tableInbody := false, sIndent := 0, logs := [] }

def c1MixedB (g : Grammar) (i : Nat) : PState :=
  { grammar := g, toks := [], counters := [],
    nodes := [c1RootNode, c1UlNode "-" i, c1LiNode i, mkDocumentNode "#ol" olTag i],
    styleNodes := [], tagStack := [], nodeStack := [0], styleStack := [],
    secmode := sectionNormal, tableInbody := false, sIndent := 0, logs := [] }

def c1MixedUl (g : Grammar) (i : Nat) : PState :=
  { grammar := g, toks := [], counters := [],
    nodes := [ { c1RootNode with children := [1, 3] },
      { c1UlNode "-" i with nextSibling := some 3 }, c1LiNode i,
      { mkDocumentNode "#ol" olTag i with parent := some 0, prevSibling := some 1 } ],
    styleNodes := [], tagStack := [olTag], nodeStack := [3, 0], styleStack := [],
    secmode := sectionNormal, tableInbody := false, sIndent := 0, logs := [] }

def c1Mixed (g : Grammar) (i : Nat) : PState :=
  { grammar := g, toks := [], counters := [],
    nodes := [ { c1RootNode with children := [1, 3] },
      { c1UlNode "-" i with nextSibling := some 3 }, c1LiNode i,
      { mkDocumentNode "#ol" olTag i with
          parent := some 0, prevSibling := some 1, children := [4] },
      { c1LiNode i with parent := some 3 } ],
    styleNodes := [], tagStack := [liTag, olTag], nodeStack := [4, 3, 0], styleStack := [],
    secmode := sectionNormal, tableInbody := false, sIndent := 0, logs := [] }

/- the first marker from the initial state -/
def c1Root0 : DocumentNode :=
  { tag := "Root", tagDefinition := rootTag, counters := [], parent := none,
    nextSibling := none, prevSibling := none, children := [], text := [],
    attributes := [], colspan := 0, indent := 0 }

def c1First0 (g : Grammar) : PState :=
  { grammar := g, toks := [], counters := [], nodes := [c1Root0],
    styleNodes := [], tagStack := [], nodeStack := [0], styleStack := [],
    secmode := sectionNormal, tableInbody := false, sIndent := 0, logs := [] }

def c1FirstB (g : Grammar) (m : String) (i : Nat) : PState :=
  { grammar := g, toks := [], counters := [],
    nodes := [c1Root0, mkDocumentNode (c1Container m).name (c1Container m) i],
    styleNodes := [], tagStack := [], nodeStack := [0], styleStack := [],
    secmode := sectionNormal, tableInbody := false, sIndent := 0, logs := [] }

def c1FirstUl (g : Grammar) (m : String) (i : Nat) : PState :=
  { grammar := g, toks := [], counters := [],
    nodes := [c1RootNode,
      { mkDocumentNode (c1Container m).name (c1Container m) i with parent := some 0 }],
    styleNodes := [], tagStack := [c1Container m], nodeStack := [1, 0], styleStack := [],
    secmode := sectionNormal, tableInbody := false, sIndent := 0, logs := [] }

/- ### Theorems -/

/- ### Lookup-order lemmas -/
theorem getTagIn_append (ts : List TagDefinition) (t : TagDefinition) (n : String) :
    getTagIn (ts ++ [t]) n = if t.name = n then some t else getTagIn ts n := by
  induction ts with
  | nil => simp [getTagIn]
  | cons hd tl ih =>
    simp only [List.cons_append, getTagIn, List.append_eq]
    rw [ih]
    by_cases h : t.name = n <;> simp [h]

theorem getEntityIn_append (es : List EntityDefinition) (e : EntityDefinition) (n : String) :
    getEntityIn (es ++ [e]) n =
      (getEntityIn es n).orElse (fun _ => if e.name = n then some e else none) := by
  induction es with
  | nil => simp [getEntityIn, Option.orElse]
  | cons hd tl ih =>
    simp only [List.cons_append, getEntityIn]
    by_cases h : hd.name = n
    · simp [h, Option.orElse]
    · simpa [h] using ih

theorem getStyleIn_append (ss : List StyleDefinition) (e : StyleDefinition) (n : String) :
    getStyleIn (ss ++ [e]) n =
      (getStyleIn ss n).orElse (fun _ => if e.name = n then some e else none) := by
  induction ss with
  | nil => simp [getStyleIn, Option.orElse]
  | cons hd tl ih =>
    simp only [List.cons_append, getStyleIn]
    by_cases h : hd.name = n
    · simp [h, Option.orElse]
    · simpa [h] using ih

theorem findUnknownParent_eq_find (grammar : Grammar) (ps : List String) :
    findUnknownParent grammar ps = ps.find? (fun q => (grammar.GetTag q).isNone) := by
  induction ps with
  | nil => rfl
  | cons p ps ih =>
    simp only [findUnknownParent, List.find?]
    by_cases h : (grammar.GetTag p).isNone = true <;> simp [h, ih]

theorem addCustomTag_snd (g : Grammar) (tag : TagDefinition) :
    (g.addCustomTag tag).2 = g.addCustomTagCheck tag := by
  cases h : g.addCustomTagCheck tag <;> simp [Grammar.addCustomTag, h]

theorem addCustomTag_fst_ok (g : Grammar) (tag : TagDefinition)
    (h : g.addCustomTagCheck tag = none) :
    (g.addCustomTag tag).1 = g.addCustomTagOk tag := by
  simp [Grammar.addCustomTag, h]

theorem addCustomTag_fst_err (g : Grammar) (tag : TagDefinition) (e : GrammarError)
    (h : g.addCustomTagCheck tag = some e) :
    (g.addCustomTag tag).1 = { g with tags := g.tags ++ [tag] } := by
  simp [Grammar.addCustomTag, h]

/-- The loop body of the default-root rewiring, restated with the condition in
the positive form used by the specification. -/
theorem rewireForDefaultRoot_eq (curRoot : Option String) (nn : String)
    (child : TagDefinition) :
    rewireForDefaultRoot curRoot nn child =
      if (child.defaultParent = none ∨ (curRoot.isSome ∧ child.defaultParent = curRoot))
          ∧ child.parentHood ≠ ParentHood.defaultRootParentHood
          ∧ child.name ≠ "#root" then
        { child with defaultParent := some nn,
                     possibleParents := nn :: child.possibleParents }
      else child := by
  unfold rewireForDefaultRoot
  rcases hc : curRoot with _ | r <;> rcases hd : child.defaultParent with _ | dp <;>
    by_cases h1 : child.parentHood = ParentHood.defaultRootParentHood <;>
    by_cases h2 : child.name = "#root" <;>
    simp [hd, h1, h2]

/-- C6 as stated is false: after registering two entities with the same name,
GetEntity returns the first registration, not the most recent one. -/
theorem c6_lookup_counterexample :
    ((NewGrammar.addCustomEntity dupEntityA).addCustomEntity dupEntityB).GetEntity "dup"
        = some dupEntityA
      ∧ dupEntityA ≠ dupEntityB := by
  constructor
  · rfl
  · decide

/-- C6 (amended): tag lookup returns the most recently registered definition
with the requested name (later registrations shadow earlier ones), while
entity and style lookup scan forward and return the earliest registered
definition with that name (later registrations of the same name are
unreachable). -/
theorem c6_lookup_order_amended :
    (∀ (g : Grammar) (t : TagDefinition) (n : String),
      Grammar.GetTag { g with tags := g.tags ++ [t] } n
        = if t.name = n then some t else g.GetTag n) ∧
    (∀ (g : Grammar) (e : EntityDefinition) (n : String),
      Grammar.GetEntity (g.addCustomEntity e) n
        = (g.GetEntity n).orElse (fun _ => if e.name = n then some e else none)) ∧
    (∀ (g : Grammar) (st : StyleDefinition) (n : String),
      Grammar.GetStyle (g.addCustomStyle st) n
        = (g.GetStyle n).orElse (fun _ => if st.name = n then some st else none)) := by
  refine ⟨?_, ?_, ?_⟩
  · intro g t n
    simpa [Grammar.GetTag] using getTagIn_append g.tags t n
  · intro g e n
    simpa [Grammar.GetEntity, Grammar.addCustomEntity] using getEntityIn_append g.entities e n
  · intro g st n
    simpa [Grammar.GetStyle, Grammar.addCustomStyle] using getStyleIn_append g.styles st n

/-- C7: add_custom_tag validation.  The lookups resolve names against the tag
list that already contains the appended tag, as in the source.  If the
default parent is unresolvable the call returns a GrammarError naming it; if
the default parent resolves and some possible parent is unresolvable, the
call returns a GrammarError naming the first such possible parent; if all
names resolve the call returns no error. -/
theorem c7_addCustomTag_validation (g : Grammar) (tag : TagDefinition) :
    (∀ dp, tag.defaultParent = some dp →
      Grammar.GetTag { g with tags := g.tags ++ [tag] } dp = none →
      (g.addCustomTag tag).2 = some ⟨"Unknown tag named " ++ dp ++
        " is used as default parent for tag " ++ tag.name⟩) ∧
    ((∀ dp, tag.defaultParent = some dp →
        (Grammar.GetTag { g with tags := g.tags ++ [tag] } dp).isSome) →
      ∀ p, tag.possibleParents.find?
          (fun q => (Grammar.GetTag { g with tags := g.tags ++ [tag] } q).isNone) = some p →
      (g.addCustomTag tag).2 = some ⟨"Unknown tag named " ++ p ++
        " is used as possible parent for tag " ++ tag.name⟩) ∧
    ((∀ dp, tag.defaultParent = some dp →
        (Grammar.GetTag { g with tags := g.tags ++ [tag] } dp).isSome) →
      (∀ p ∈ tag.possibleParents,
        (Grammar.GetTag { g with tags := g.tags ++ [tag] } p).isSome) →
      (g.addCustomTag tag).2 = none) := by
  refine ⟨?_, ?_, ?_⟩
  · intro dp hdp hget
    rw [addCustomTag_snd]
    simp [Grammar.addCustomTagCheck, hdp, hget]
  · intro hdpOk p hfind
    rw [addCustomTag_snd]
    have hdpNone :
        (match tag.defaultParent with
         | some dp =>
            if (Grammar.GetTag { g with tags := g.tags ++ [tag] } dp).isNone then some dp else none
         | none => none) = (none : Option String) := by
      cases hdp : tag.defaultParent with
      | none => rfl
      | some dp =>
        have := hdpOk dp hdp
        simp [Option.isNone_iff_eq_none]
        intro hc
        rw [hc] at this
        simp at this
    simp only [Grammar.addCustomTagCheck, hdpNone]
    rw [findUnknownParent_eq_find]
    simp only [Grammar.GetTag] at hfind ⊢
    rw [hfind]
    rfl
  · intro hdpOk hpar
    rw [addCustomTag_snd]
    have hdpNone :
        (match tag.defaultParent with
         | some dp =>
            if (Grammar.GetTag { g with tags := g.tags ++ [tag] } dp).isNone then some dp else none
         | none => none) = (none : Option String) := by
      cases hdp : tag.defaultParent with
      | none => rfl
      | some dp =>
        have := hdpOk dp hdp
        simp [Option.isNone_iff_eq_none]
        intro hc
        rw [hc] at this
        simp at this
    simp only [Grammar.addCustomTagCheck, hdpNone]
    rw [findUnknownParent_eq_find]
    have : tag.possibleParents.find?
        (fun q => (Grammar.GetTag { g with tags := g.tags ++ [tag] } q).isNone) = none := by
      rw [List.find?_eq_none]
      intro x hx
      have := hpar x hx
      simp only [Option.isNone_iff_eq_none]
      intro hc
      rw [hc] at this
      simp at this
    simp only [Grammar.GetTag] at this ⊢
    rw [this]
    rfl

theorem c7_witness :
    (NewGrammar.addCustomTag c7BadTag).2
        = some ⟨"Unknown tag named #nosuch is used as default parent for tag #custom1"⟩
      ∧ (NewGrammar.addCustomTag c7GoodTag).2 = none := by
  constructor
  · rw [(c7_addCustomTag_validation NewGrammar c7BadTag).1 "#nosuch" rfl (by decide)]
    decide
  · refine (c7_addCustomTag_validation NewGrammar c7GoodTag).2.2 ?_ ?_
    · intro dp h
      have h2 : (some "#ul" : Option String) = some dp := h
      injection h2 with h3
      subst h3
      decide
    · intro p hp
      have hp2 : p = "#ul" := by
        simpa [c7GoodTag, liTag] using hp
      subst hp2
      decide

/-- C8: registering a tag with attachment mode default-root (1) records it as
the current default root, (2) rewrites every previously registered tag that
has no default parent or has the previous default root as its default parent
— and is not itself default-root and not the synthetic root — to use the new
tag as default parent, with the new name prepended to its possible parents,
and (3) a tag registered afterwards (while this default root is active) with
no explicit default parent and distinct from the root inherits the new tag as
its default parent. -/
theorem c8_default_root_rewire (g : Grammar) (tag : TagDefinition)
    (hmode : tag.parentHood = ParentHood.defaultRootParentHood)
    (hok : (g.addCustomTag tag).2 = none) :
    ((g.addCustomTag tag).1.currentDefaultRoot = some tag.name) ∧
    (∀ i (h : i < g.tags.length),
      (g.addCustomTag tag).1.tags.get? i =
        some (if ((g.tags.get ⟨i, h⟩).defaultParent = none ∨
                  (g.currentDefaultRoot.isSome ∧
                    (g.tags.get ⟨i, h⟩).defaultParent = g.currentDefaultRoot))
                ∧ (g.tags.get ⟨i, h⟩).parentHood ≠ ParentHood.defaultRootParentHood
                ∧ (g.tags.get ⟨i, h⟩).name ≠ "#root" then
            { g.tags.get ⟨i, h⟩ with
                defaultParent := some tag.name,
                possibleParents := tag.name :: (g.tags.get ⟨i, h⟩).possibleParents }
          else g.tags.get ⟨i, h⟩)) ∧
    (∀ t2 : TagDefinition, t2.defaultParent = none → t2.name ≠ "#root" →
      t2.parentHood ≠ ParentHood.defaultRootParentHood →
      ((g.addCustomTag tag).1.addCustomTag t2).2 = none →
      ∃ tl, ((g.addCustomTag tag).1.addCustomTag t2).1.tags.getLast? = some tl ∧
        tl.name = t2.name ∧ tl.defaultParent = some tag.name) := by
  have hchk : g.addCustomTagCheck tag = none := by
    rw [addCustomTag_snd] at hok; exact hok
  have hfst : (g.addCustomTag tag).1 = g.addCustomTagOk tag :=
    addCustomTag_fst_ok g tag hchk
  refine ⟨?_, ?_, ?_⟩
  · rw [hfst]
    simp [Grammar.addCustomTagOk, hmode]
  · intro i h
    rw [hfst]
    have hlen : i < (g.tags.map (rewireForDefaultRoot g.currentDefaultRoot tag.name)).length := by
      simpa using h
    simp only [Grammar.addCustomTagOk, hmode, if_true, if_pos]
    rw [List.get?_append hlen, List.get?_map, List.get?_eq_get h]
    simp only [Option.map_some']
    rw [rewireForDefaultRoot_eq]
  · intro t2 hdp2 hname2 hph2 hok2
    rw [hfst] at hok2 ⊢
    have hchk2 : (g.addCustomTagOk tag).addCustomTagCheck t2 = none := by
      rw [addCustomTag_snd] at hok2; exact hok2
    rw [addCustomTag_fst_ok _ _ hchk2]
    refine ⟨{ { t2 with allowedInParentHood := true } with
                defaultParent := some tag.name }, ?_, rfl, rfl⟩
    have hroot : (g.addCustomTagOk tag).currentDefaultRoot = some tag.name := by
      simp [Grammar.addCustomTagOk, hmode]
    simp [Grammar.addCustomTagOk, hdp2, hname2, hph2, hmode]

theorem c8_witness :
    ((NewGrammar.addCustomTag pageTag).1.currentDefaultRoot = some "#page") ∧
    ((NewGrammar.addCustomTag pageTag).1.tags.get? 1
        = some { pTag with defaultParent := some "#page", possibleParents := ["#page"] }) ∧
    (∃ tl, ((NewGrammar.addCustomTag pageTag).1.addCustomTag c8LaterTag).1.tags.getLast?
        = some tl ∧ tl.name = "#sec" ∧ tl.defaultParent = some "#page") := by
  have h := c8_default_root_rewire NewGrammar pageTag rfl (by decide)
  refine ⟨h.1, ?_, ?_⟩
  · rw [h.2.1 1 (by decide)]
    decide
  · obtain ⟨tl, h1, h2, h3⟩ := h.2.2 c8LaterTag rfl (by decide) (by decide) (by decide)
    exact ⟨tl, h1, h2, h3⟩

/-- C10: add_custom_tag is not atomic on failure.  When validation fails the
appended tag stays in the grammar and shadows earlier registrations of its
name; and a tag naming itself as its default parent passes the default-parent
check, because the appended tag is already visible to the lookup. -/
theorem c10_addCustomTag_not_atomic :
    (∀ (g : Grammar) (tag : TagDefinition) (dp : String),
      tag.defaultParent = some dp →
      Grammar.GetTag { g with tags := g.tags ++ [tag] } dp = none →
      (g.addCustomTag tag).1.tags = g.tags ++ [tag] ∧
      (g.addCustomTag tag).2.isSome = true ∧
      (g.addCustomTag tag).1.GetTag tag.name = some tag) ∧
    (∀ (g : Grammar) (tag : TagDefinition),
      tag.defaultParent = some tag.name →
      (∀ p ∈ tag.possibleParents,
        (Grammar.GetTag { g with tags := g.tags ++ [tag] } p).isSome) →
      (g.addCustomTag tag).2 = none) := by
  constructor
  · intro g tag dp hdp hget
    have hchk : g.addCustomTagCheck tag =
        some ⟨"Unknown tag named " ++ dp ++ " is used as default parent for tag " ++ tag.name⟩ := by
      simp [Grammar.addCustomTagCheck, hdp, hget]
    have hfst := addCustomTag_fst_err g tag _ hchk
    refine ⟨by rw [hfst], by rw [addCustomTag_snd, hchk]; rfl, ?_⟩
    rw [hfst]
    show Grammar.GetTag { g with tags := g.tags ++ [tag] } tag.name = some tag
    simp [Grammar.GetTag, getTagIn_append]
  · intro g tag hself hpar
    rw [addCustomTag_snd]
    have hdpSome : Grammar.GetTag { g with tags := g.tags ++ [tag] } tag.name = some tag := by
      simp [Grammar.GetTag, getTagIn_append]
    simp only [Grammar.addCustomTagCheck, hself, hdpSome]
    rw [findUnknownParent_eq_find]
    have hnone : tag.possibleParents.find?
        (fun q => (Grammar.GetTag { g with tags := g.tags ++ [tag] } q).isNone) = none := by
      rw [List.find?_eq_none]
      intro x hx
      have := hpar x hx
      simp only [Option.isNone_iff_eq_none]
      intro hc
      rw [hc] at this
      simp at this
    simp only [Grammar.GetTag] at hnone ⊢
    rw [hnone]
    rfl

theorem c10_witness :
    ((NewGrammar.addCustomTag c10BadTag).1.GetTag "#broken" = some c10BadTag ∧
      (NewGrammar.addCustomTag c10BadTag).2.isSome = true) ∧
    (NewGrammar.addCustomTag c10SelfTag).2 = none := by
  constructor
  · obtain ⟨h1, h2, h3⟩ :=
      c10_addCustomTag_not_atomic.1 NewGrammar c10BadTag "#zzz" rfl (by decide)
    exact ⟨h3, h2⟩
  · refine c10_addCustomTag_not_atomic.2 NewGrammar c10SelfTag rfl ?_
    intro p hp
    simp [c10SelfTag, liTag] at hp

/- ### Stack-shape lemmas for the resolver -/
theorem getLast?_drop {α : Type} (l : List α) (k : Nat) (h : k < l.length) :
    (l.drop k).getLast? = l.getLast? := by
  induction l generalizing k with
  | nil => simp at h
  | cons a as ih =>
    cases k with
    | zero => rfl
    | succ k2 =>
      simp only [List.drop_succ_cons]
      rw [ih k2 (by simpa using h)]
      cases as with
      | nil => simp at h
      | cons b bs => simp [List.getLast?_cons_cons]

theorem getLast?_cons_of_ne_nil {α : Type} (a : α) (l : List α) (h : l ≠ []) :
    (a :: l).getLast? = l.getLast? := by
  cases l with
  | nil => exact absurd rfl h
  | cons b bs => simp [List.getLast?_cons_cons]

@[simp] theorem setNodeF_tagStack (s : PState) (i : Nat) (f : DocumentNode → DocumentNode) :
    (setNodeF s i f).tagStack = s.tagStack := rfl

@[simp] theorem setNodeF_nodeStack (s : PState) (i : Nat) (f : DocumentNode → DocumentNode) :
    (setNodeF s i f).nodeStack = s.nodeStack := rfl

@[simp] theorem setStyleF_tagStack (s : PState) (i : Nat) (f : StyleNode → StyleNode) :
    (setStyleF s i f).tagStack = s.tagStack := rfl

@[simp] theorem setStyleF_nodeStack (s : PState) (i : Nat) (f : StyleNode → StyleNode) :
    (setStyleF s i f).nodeStack = s.nodeStack := rfl

@[simp] theorem appendChild_tagStack (s : PState) (p c : Nat) :
    (appendChild s p c).tagStack = s.tagStack := by
  simp only [appendChild]
  split <;> rfl

@[simp] theorem appendChild_nodeStack (s : PState) (p c : Nat) :
    (appendChild s p c).nodeStack = s.nodeStack := by
  simp only [appendChild]
  split <;> rfl

@[simp] theorem removeChild_tagStack (s : PState) (p c : Nat) :
    (removeChild s p c).tagStack = s.tagStack := by
  simp only [removeChild]
  split <;> rfl

@[simp] theorem removeChild_nodeStack (s : PState) (p c : Nat) :
    (removeChild s p c).nodeStack = s.nodeStack := by
  simp only [removeChild]
  split <;> rfl

@[simp] theorem appendTextToParent_tagStack (s : PState) (tc : TextChild) :
    (appendTextToParent s tc).tagStack = s.tagStack := by
  simp only [appendTextToParent]
  split
  · rfl
  · split <;> rfl

@[simp] theorem appendTextToParent_nodeStack (s : PState) (tc : TextChild) :
    (appendTextToParent s tc).nodeStack = s.nodeStack := by
  simp only [appendTextToParent]
  split
  · rfl
  · split <;> rfl

@[simp] theorem pushStyle_tagStack (s : PState) (st : StyleNode) :
    (pushStyle s st).tagStack = s.tagStack := by
  simp [pushStyle]

@[simp] theorem pushStyle_nodeStack (s : PState) (st : StyleNode) :
    (pushStyle s st).nodeStack = s.nodeStack := by
  simp [pushStyle]

@[simp] theorem closeStyles_tagStack (s : PState) :
    (closeStyles s).tagStack = s.tagStack := rfl

@[simp] theorem closeStyles_nodeStack (s : PState) :
    (closeStyles s).nodeStack = s.nodeStack := rfl

@[simp] theorem closeStyle_tagStack (s : PState) (n : String) :
    (closeStyle s n).tagStack = s.tagStack := by
  simp only [closeStyle]
  split
  · rfl
  · split
    · rfl
    · split <;> rfl

@[simp] theorem closeStyle_nodeStack (s : PState) (n : String) :
    (closeStyle s n).nodeStack = s.nodeStack := by
  simp only [closeStyle]
  split
  · rfl
  · split
    · rfl
    · split <;> rfl

@[simp] theorem newDocumentNode_tagStack (s : PState) (tag : String) (indent : Nat) :
    (newDocumentNode s tag indent).1.tagStack = s.tagStack := by
  simp only [newDocumentNode]
  split <;> rfl

@[simp] theorem newDocumentNode_nodeStack (s : PState) (tag : String) (indent : Nat) :
    (newDocumentNode s tag indent).1.nodeStack = s.nodeStack := by
  simp only [newDocumentNode]
  split <;> rfl

theorem wf_of_stacks (s s2 : PState) (ht : s2.tagStack = s.tagStack)
    (hn : s2.nodeStack = s.nodeStack) (h : wf s) : wf s2 := by
  unfold wf at *
  rw [ht, hn]
  exact h

theorem wf_nodeStack_ne_nil (s : PState) (h : wf s) : s.nodeStack ≠ [] := by
  intro hc
  obtain ⟨h1, _⟩ := h
  rw [hc] at h1
  simp at h1

theorem wf_closeTags (s : PState) (level : Nat) (h : wf s) : wf (closeTags s level) := by
  obtain ⟨h1, h2⟩ := h
  unfold closeTags
  constructor
  · simp only [closeStyles_tagStack, closeStyles_nodeStack, List.length_drop]
    omega
  · simp only [closeStyles_nodeStack]
    rw [getLast?_drop _ _ (by simp only [closeStyles_tagStack]; omega)]
    exact h2

theorem wf_pushFinal (s : PState) (nid : Nat) (h : wf s) : wf (pushFinal s nid) := by
  obtain ⟨h1, h2⟩ := h
  simp only [pushFinal]
  constructor
  · simp
    omega
  · simp only []
    show (nid :: _).getLast? = some 0
    rw [getLast?_cons_of_ne_nil]
    · simpa using h2
    · simp only [setNodeF_nodeStack, appendChild_nodeStack]
      intro hc
      rw [hc] at h1
      simp at h1

theorem wf_withToks (s : PState) (tk : List Tok) (h : wf s) : wf { s with toks := tk } := h

theorem wf_withLogs (s : PState) (l : List LogEntry) (h : wf s) : wf { s with logs := l } := h

theorem wf_withCounters (s : PState) (c : List (String × Nat)) (h : wf s) :
    wf { s with counters := c } := h

theorem wf_withSecmode (s : PState) (m : Nat) (h : wf s) : wf { s with secmode := m } := h

theorem wf_withTableInbody (s : PState) (b : Bool) (h : wf s) :
    wf { s with tableInbody := b } := h

theorem wf_setNodeF (s : PState) (i : Nat) (f : DocumentNode → DocumentNode) (h : wf s) :
    wf (setNodeF s i f) := h

theorem wf_setStyleF (s : PState) (i : Nat) (f : StyleNode → StyleNode) (h : wf s) :
    wf (setStyleF s i f) := h

theorem wf_closeStyles (s : PState) (h : wf s) : wf (closeStyles s) := h

theorem wf_closeStyle (s : PState) (n : String) (h : wf s) : wf (closeStyle s n) := by
  simp only [closeStyle]
  split
  · exact h
  · split
    · exact h
    · split
      · exact h
      · exact h

theorem wf_appendChild (s : PState) (p c : Nat) (h : wf s) : wf (appendChild s p c) := by
  simp only [appendChild]
  split <;> exact h

theorem wf_removeChild (s : PState) (p c : Nat) (h : wf s) : wf (removeChild s p c) := by
  simp only [removeChild]
  split <;> exact h

theorem wf_appendTextToParent (s : PState) (tc : TextChild) (h : wf s) :
    wf (appendTextToParent s tc) := by
  simp only [appendTextToParent]
  split
  · exact h
  · split
    · exact h
    · exact h

theorem wf_pushStyle (s : PState) (st : StyleNode) (h : wf s) : wf (pushStyle s st) := by
  simp only [pushStyle]
  exact wf_appendTextToParent _ _ h

theorem wf_newDocumentNode_fst (s : PState) (tag : String) (indent : Nat) (h : wf s) :
    wf (newDocumentNode s tag indent).1 := by
  simp only [newDocumentNode]
  split <;> exact h

theorem wf_pushNodeOnStackAux (fuel : Nat) (s : PState) (nid : Nat) (h : wf s) :
    wf (pushNodeOnStackAux fuel s nid) := by
  induction fuel generalizing s nid with
  | zero => exact wf_pushFinal s nid h
  | succ n ih =>
    simp only [pushNodeOnStackAux]
    split
    · exact wf_pushFinal _ _ (ih _ _ (wf_newDocumentNode_fst _ _ _ (wf_closeTags _ _ h)))
    · exact wf_pushFinal _ _ h

theorem wf_pushNodeOnStack (s : PState) (nid : Nat) (h : wf s) : wf (pushNodeOnStack s nid) :=
  wf_pushNodeOnStackAux _ s nid h

theorem wf_openTag2LoopAux (fuel : Nat) (defaults : List TagDefinition) (newIndent : Nat)
    (s : PState) (h : wf s) : wf (openTag2LoopAux fuel defaults newIndent s).1 := by
  induction fuel generalizing s with
  | zero => exact h
  | succ n ih =>
    simp only [openTag2LoopAux]
    split
    · split
      · exact h
      · exact ih _ (wf_closeTags _ _ h)
    · exact h

theorem wf_openDefaults (s : PState) (defaults : List TagDefinition) (n indent : Nat)
    (h : wf s) : wf (openDefaults s defaults n indent) := by
  induction n generalizing s with
  | zero => exact h
  | succ i ih =>
    simp only [openDefaults]
    exact ih _ (wf_pushNodeOnStack _ _ (wf_newDocumentNode_fst _ _ _ h))

theorem wf_openTag2 (s : PState) (tag : TagDefinition) (nid : Nat) (fix : Bool)
    (h : wf s) : wf (openTag2 s tag nid fix) := by
  simp only [openTag2]
  split
  · exact wf_withSecmode _ _ (wf_pushNodeOnStack _ _
      (wf_openDefaults _ _ _ _ (wf_openTag2LoopAux _ _ _ _ (wf_closeStyles _ h))))
  · exact wf_withSecmode _ _ (wf_pushNodeOnStack _ _ (wf_closeStyles _ h))

theorem wf_openTableCell (s : PState) (h : wf s) : wf (openTableCell s) := by
  simp only [openTableCell]
  split
  · exact h
  · exact wf_openTag2 _ _ _ _ (wf_newDocumentNode_fst _ _ _ h)

theorem wf_openTag (s : PState) (tag : TagDefinition) (h : wf s) : wf (openTag s tag).1 := by
  simp only [openTag]
  exact wf_openTag2 _ _ _ _ (wf_setNodeF _ _ _ (wf_withToks _ _ (wf_newDocumentNode_fst _ _ _ h)))

theorem wf_closeTableCell (s : PState) (colspan : Nat) (h : wf s) :
    wf (closeTableCell s colspan) := by
  simp only [closeTableCell]
  split
  · exact wf_closeTags _ _ (wf_setNodeF _ _ _ h)
  · exact h

theorem wf_closeTableRow (s : PState) (colspan : Nat) (h : wf s) :
    wf (closeTableRow s colspan) := by
  simp only [closeTableRow]
  refine wf_withTableInbody _ _ ?_
  split
  · exact wf_closeTags _ _ (wf_closeTableCell _ _ h)
  · exact wf_closeTableCell _ _ h

theorem wf_textAppendAndRewrite (s : PState) (pid : Nat) (str : String) (h : wf s) :
    wf (textAppendAndRewrite s pid str) := by
  simp only [textAppendAndRewrite]
  split
  · split
    · exact wf_setNodeF _ _ _ h
    · split
      · refine wf_openTag2 _ _ _ _ (wf_setNodeF _ _ _ (wf_newDocumentNode_fst _ _ _
          (wf_closeTags _ _ (wf_openTag2 _ _ _ _ (wf_setNodeF _ _ _
            (wf_newDocumentNode_fst _ _ _ ?_))))))
        split
        · exact wf_removeChild _ _ _ (wf_closeTags _ _ (wf_setNodeF _ _ _ h))
        · exact wf_closeTags _ _ (wf_setNodeF _ _ _ h)
      · exact wf_setNodeF _ _ _ h
  · exact wf_setNodeF _ _ _ h

theorem wf_tableCellAdjusted (s : PState) (h : wf s) : wf (tableCellAdjusted s) := by
  simp only [tableCellAdjusted]
  split
  · exact wf_openTableCell s h
  · exact h

theorem wf_handleTextTail (s : PState) (str : String) (h : wf s) : wf (handleTextTail s str) := by
  simp only [handleTextTail]
  split
  · exact h
  · split
    · exact wf_setStyleF _ _ _ h
    · split
      · exact h
      · split
        · split
          · exact h
          · exact wf_textAppendAndRewrite _ _ _
              (wf_openTag2 _ _ _ _ (wf_newDocumentNode_fst _ _ _ h))
        · exact wf_textAppendAndRewrite _ _ _ h

theorem wf_handleText (s : PState) (str : String) (h : wf s) : wf (handleText s str) :=
  wf_handleTextTail _ _ (wf_tableCellAdjusted s h)

theorem wf_handleMathText (s : PState) (str : String) (h : wf s) : wf (handleMathText s str) := by
  simp only [handleMathText, handleMathTextTail]
  split
  · exact wf_tableCellAdjusted s h
  · exact wf_appendTextToParent _ _ (wf_tableCellAdjusted s h)

theorem wf_handleCodeText (s : PState) (str : String) (h : wf s) : wf (handleCodeText s str) := by
  simp only [handleCodeText, handleCodeTextTail]
  split
  · exact wf_tableCellAdjusted s h
  · exact wf_appendTextToParent _ _ (wf_tableCellAdjusted s h)

theorem wf_handleStyleTokTail (s : PState) (str : String) (h : wf s) :
    wf (handleStyleTokTail s str) := by
  simp only [handleStyleTokTail]
  split
  · exact wf_closeStyle _ _ h
  · split
    · split
      · exact wf_closeStyle _ _ h
      · exact wf_pushStyle _ _ h
    · split
      · split
        · exact wf_closeStyle _ _ h
        · exact wf_pushStyle _ _ h
      · split
        · exact wf_setStyleF _ _ _ (wf_withToks _ _ (wf_pushStyle _ _ (wf_withToks _ _ h)))
        · exact wf_withLogs _ _ h

theorem wf_handleStyleTok (s : PState) (str : String) (h : wf s) : wf (handleStyleTok s str) :=
  wf_handleStyleTokTail _ _ (wf_tableCellAdjusted s h)

theorem wf_handleEntityTokTail (s : PState) (str : String) (h : wf s) :
    wf (handleEntityTokTail s str) := by
  simp only [handleEntityTokTail]
  split
  · exact wf_of_stacks s _ rfl rfl h
  · exact wf_appendTextToParent _ _ (wf_of_stacks s _ rfl rfl h)

theorem wf_handleEntityTok (s : PState) (str : String) (h : wf s) : wf (handleEntityTok s str) :=
  wf_handleEntityTokTail _ _ (wf_tableCellAdjusted s h)

set_option maxHeartbeats 1000000 in
theorem wf_handleEnum (s : PState) (marker : String) (indent : Nat) (h : wf s) :
    wf (handleEnum s marker indent) := by
  simp only [handleEnum]
  refine wf_openTag2 _ _ _ _ (wf_setNodeF _ _ _ (wf_withToks _ _
    (wf_newDocumentNode_fst _ _ _ ?_)))
  repeat' split
  all_goals first
    | exact wf_setNodeF _ _ _ (wf_closeTags _ _ h)
    | exact wf_openTag2 _ _ _ _ (wf_newDocumentNode_fst _ _ _ (wf_closeTags _ _ h))

theorem wf_handleNormalSection (s : PState) (name : String) (h : wf s) :
    wf (handleNormalSection s name) := by
  simp only [handleNormalSection]
  have hbase : ∀ s1 : PState, wf s1 → ∀ tg : TagDefinition, ∀ vOpt : Option String, ∀ tn : String,
      wf (match vOpt with
          | some v =>
            if tg.defaultAttribute = "" then
              { (openTag s1 tg).1 with
                  logs := (openTag s1 tg).1.logs ++ [LogEntry.noDefaultAttribute tn] }
            else
              setNodeF (openTag s1 tg).1 (openTag s1 tg).2
                (fun n => { n with attributes := assocSet n.attributes tg.defaultAttribute v })
          | none => (openTag s1 tg).1) := by
    intro s1 h1 tg vOpt tn
    split
    · split
      · exact wf_withLogs _ _ (wf_openTag _ _ h1)
      · exact wf_setNodeF _ _ _ (wf_openTag _ _ h1)
    · exact wf_openTag _ _ h1
  have hlook : wf (match s.grammar.GetTag
        (match splitAtColon name with
         | some (a, b) => (a, some b)
         | none => (name, none)).1 with
      | some t =>
        ((t : TagDefinition), s)
      | none =>
        (((s.grammar.GetTag "#p").getD dummyTagDef),
          { s with logs := s.logs ++ [LogEntry.unknownTag
              (match splitAtColon name with
               | some (a, b) => (a, some b)
               | none => (name, none)).1] })).2 := by
    split
    · exact h
    · exact wf_withLogs _ _ h
  split
  · exact wf_withTableInbody _ _ (hbase _ hlook _ _ _)
  · exact hbase _ hlook _ _ _

theorem wf_handleDefineTag (s : PState) (n : String) (s2 : PState) (h : wf s)
    (hstep : handleDefineTag s n = StepOut.ok s2) : wf s2 := by
  simp only [handleDefineTag] at hstep
  split at hstep
  · exact absurd hstep (by simp)
  · split at hstep
    · exact absurd hstep (by simp)
    · injection hstep with h2
      subst h2
      exact wf_of_stacks _ _ rfl rfl h

theorem wf_handleDefineEntity (s : PState) (n : String) (s2 : PState) (h : wf s)
    (hstep : handleDefineEntity s n = StepOut.ok s2) : wf s2 := by
  simp only [handleDefineEntity] at hstep
  split at hstep
  · exact absurd hstep (by simp)
  · injection hstep with h2
    subst h2
    exact wf_of_stacks _ _ rfl rfl h

theorem wf_handleDefineStyle (s : PState) (n : String) (s2 : PState) (h : wf s)
    (hstep : handleDefineStyle s n = StepOut.ok s2) : wf s2 := by
  simp only [handleDefineStyle] at hstep
  split at hstep
  · exact absurd hstep (by simp)
  · injection hstep with h2
    subst h2
    exact wf_of_stacks _ _ rfl rfl h

theorem wf_parseStep1 (s : PState) (tok : Tok) (s2 : PState) (h : wf s)
    (hstep : parseStep1 s tok = StepOut.ok s2) : wf s2 := by
  cases tok with
  | TokenSection name indent =>
    simp only [parseStep1] at hstep
    split at hstep
    · refine wf_handleDefineTag _ _ _ ?_ hstep
      exact wf_of_stacks s _ rfl rfl h
    · split at hstep
      · refine wf_handleDefineEntity _ _ _ ?_ hstep
        exact wf_of_stacks s _ rfl rfl h
      · split at hstep
        · refine wf_handleDefineStyle _ _ _ ?_ hstep
          exact wf_of_stacks s _ rfl rfl h
        · split at hstep
          · exact absurd hstep (by simp)
          · injection hstep with h2
            subst h2
            exact wf_handleNormalSection _ _ (wf_of_stacks _ _ rfl rfl h)
  | TokenValue v => exact absurd hstep (by simp [parseStep1])
  | TokenEnum marker indent =>
    injection hstep with h2
    subst h2
    exact wf_handleEnum _ _ _ (wf_of_stacks _ _ rfl rfl h)
  | TokenText str =>
    injection hstep with h2
    subst h2
    exact wf_handleText _ _ h
  | TokenMathText str =>
    injection hstep with h2
    subst h2
    exact wf_handleMathText _ _ h
  | TokenCodeText str =>
    injection hstep with h2
    subst h2
    exact wf_handleCodeText _ _ h
  | TokenStyle str =>
    injection hstep with h2
    subst h2
    exact wf_handleStyleTok _ _ h
  | TokenEntity str =>
    injection hstep with h2
    subst h2
    exact wf_handleEntityTok _ _ h
  | TokenConfigText p =>
    injection hstep with h2
    subst h2
    exact h
  | TokenTableCell str =>
    injection hstep with h2
    subst h2
    exact wf_openTableCell _ (wf_closeTableCell _ _ h)
  | TokenTableRow str =>
    injection hstep with h2
    subst h2
    exact wf_closeTableRow _ _ h

set_option maxHeartbeats 1000000 in
theorem parseLoop_done_wf (fuel : Nat) (s : PState) (st : PState) (h : wf s)
    (hdone : parseLoop fuel s = ParseOutcome.done st) :
    st.tagStack = [] ∧ st.nodeStack = [0] := by
  induction fuel generalizing s with
  | zero => exact absurd hdone (by simp [parseLoop])
  | succ n ih =>
    simp only [parseLoop] at hdone
    split at hdone
    · injection hdone with h2
      subst h2
      obtain ⟨h1, h2⟩ := h
      have hwfc := wf_closeTags s 0 ⟨h1, h2⟩
      obtain ⟨hc1, hc2⟩ := hwfc
      have htag : (closeTags s 0).tagStack = [] := by
        unfold closeTags
        simp
      constructor
      · exact htag
      · rw [htag] at hc1
        simp at hc1
        cases hn : (closeTags s 0).nodeStack with
        | nil => rw [hn] at hc1; simp at hc1
        | cons a l =>
          rw [hn] at hc1 hc2
          cases l with
          | nil =>
            simp [List.getLast?] at hc2
            subst hc2
            rfl
          | cons b l2 => simp at hc1
    · split at hdone
      · refine ih _ ?_ hdone
        refine wf_parseStep1 _ _ _ ?_ (by assumption)
        exact wf_of_stacks s _ rfl rfl h
      · exact absurd hdone (by simp)
      · exact absurd hdone (by simp)

/-- C2: whenever the main loop of the parser reaches end of input (for any
grammar and any token stream), the final closeTags leaves the open-tag stack
empty and the open-node stack of height exactly one, holding only the
synthetic root; no node opened during parsing remains open. -/
theorem c2_eof_closes_all (g : Grammar) (toks : List Tok) (fuel : Nat) (st : PState)
    (hdone : parse fuel g toks = ParseOutcome.done st) :
    st.tagStack = [] ∧ st.nodeStack = [0] := by
  refine parseLoop_done_wf fuel (initState g toks) st ?_ hdone
  constructor <;> rfl

theorem c2_witness :
    ∃ st, parse 9 NewGrammar [Tok.TokenSection "#p" 0, Tok.TokenText "hello"] = ParseOutcome.done st
      ∧ st.tagStack = [] ∧ st.nodeStack = [0] := by
  have h : ∃ st, parse 9 NewGrammar [Tok.TokenSection "#p" 0, Tok.TokenText "hello"]
      = ParseOutcome.done st := ⟨_, rfl⟩
  obtain ⟨st, hst⟩ := h
  have h2 := c2_eof_closes_all NewGrammar [Tok.TokenSection "#p" 0, Tok.TokenText "hello"] 9 st hst
  exact ⟨st, hst, h2.1, h2.2⟩

/- ### C5: the counter discipline of node pushes -/
theorem listModify_length {α : Type} (l : List α) (i : Nat) (f : α → α) :
    (listModify l i f).length = l.length := by
  induction l generalizing i with
  | nil => rfl
  | cons a as ih =>
    cases i with
    | zero => rfl
    | succ n => simp [listModify, ih]

theorem listModify_getD_self {α : Type} (l : List α) (i : Nat) (f : α → α) (d : α)
    (h : i < l.length) : (listModify l i f).getD i d = f (l.getD i d) := by
  induction l generalizing i with
  | nil => simp at h
  | cons a as ih =>
    cases i with
    | zero => rfl
    | succ n =>
      simp only [listModify, List.getD_cons_succ]
      exact ih n (by simpa using h)

theorem getD_listModify_tagDef (l : List DocumentNode) (i n : Nat)
    (f : DocumentNode → DocumentNode)
    (hf : ∀ x, (f x).tagDefinition = x.tagDefinition) :
    ((listModify l i f).getD n dummyNode).tagDefinition
      = (l.getD n dummyNode).tagDefinition := by
  induction l generalizing i n with
  | nil => rfl
  | cons a as ih =>
    cases i with
    | zero =>
      cases n with
      | zero => simpa [listModify] using hf a
      | succ k => rfl
    | succ j =>
      cases n with
      | zero => rfl
      | succ k => simpa [listModify] using ih j k

theorem getNode_setNodeF_self (s : PState) (i : Nat) (f : DocumentNode → DocumentNode)
    (h : i < s.nodes.length) : getNode (setNodeF s i f) i = f (getNode s i) := by
  simp only [getNode, setNodeF]
  exact listModify_getD_self _ _ _ _ h

theorem appendChild_counters (s : PState) (p c : Nat) :
    (appendChild s p c).counters = s.counters := by
  simp only [appendChild]
  split <;> rfl

theorem appendChild_nodes_length (s : PState) (p c : Nat) :
    (appendChild s p c).nodes.length = s.nodes.length := by
  simp only [appendChild, setNodeF]
  split <;> simp [listModify_length]

theorem getNode_appendChild_tagDef (s : PState) (p c n : Nat) :
    (getNode (appendChild s p c) n).tagDefinition = (getNode s n).tagDefinition := by
  simp only [appendChild, getNode, setNodeF]
  split
  · rw [getD_listModify_tagDef, getD_listModify_tagDef, getD_listModify_tagDef,
        getD_listModify_tagDef]
    all_goals intro x
    all_goals rfl
  · rw [getD_listModify_tagDef, getD_listModify_tagDef]
    all_goals intro x
    all_goals rfl

theorem pushFinal_counters (s : PState) (nid : Nat) :
    (pushFinal s nid).counters
      = incCounter (getNode s nid).tagDefinition.counter
          (resetCounterList (getNode s nid).tagDefinition.resetCounter s.counters) := by
  simp only [pushFinal, setNodeF]
  rw [getNode_appendChild_tagDef, appendChild_counters]

theorem pushFinal_node_counters (s : PState) (nid : Nat) (h : nid < s.nodes.length) :
    (getNode (pushFinal s nid) nid).counters = (pushFinal s nid).counters := by
  have h2 : nid < (appendChild s (s.nodeStack.headD 0) nid).nodes.length := by
    rw [appendChild_nodes_length]
    exact h
  simp only [pushFinal, getNode, setNodeF] at h2 ⊢
  rw [listModify_getD_self _ _ _ _ h2]

theorem pushAux_ends_in_pushFinal (fuel : Nat) (s : PState) (nid : Nat) :
    ∃ s2, pushNodeOnStackAux fuel s nid = pushFinal s2 nid := by
  cases fuel with
  | zero => exact ⟨s, rfl⟩
  | succ n =>
    simp only [pushNodeOnStackAux]
    split
    · exact ⟨_, rfl⟩
    · exact ⟨s, rfl⟩

theorem assocGet_assocSet_self {β : Type} (m : List (String × β)) (k : String) (v : β) :
    assocGet (assocSet m k v) k = some v := by
  induction m with
  | nil => simp [assocSet, assocGet]
  | cons p rest ih =>
    by_cases hk : p.1 = k
    · simp [assocSet, assocGet, hk]
    · simp [assocSet, assocGet, hk, ih]

theorem assocGet_assocDel_ne {β : Type} (m : List (String × β)) (k k2 : String)
    (h : k2 ≠ k) : assocGet (assocDel m k) k2 = assocGet m k2 := by
  induction m with
  | nil => rfl
  | cons p rest ih =>
    by_cases hk : p.1 = k
    · subst hk
      have h1 : ¬ (p.1 = k2) := fun h2 => h h2.symm
      simp [assocDel, assocGet, h1]
    · simp only [assocDel, if_neg hk, assocGet]
      by_cases h2 : p.1 = k2
      · simp [h2]
      · simp [h2, ih]

theorem assocGet_notMem_keys {β : Type} (m : List (String × β)) (k : String)
    (h : ¬ k ∈ m.map Prod.fst) : assocGet m k = none := by
  induction m with
  | nil => rfl
  | cons p rest ih =>
    simp only [List.map_cons, List.mem_cons, not_or] at h
    have h1 : ¬ (p.1 = k) := fun h2 => h.1 h2.symm
    simp only [assocGet, if_neg h1]
    exact ih h.2

theorem assocGet_assocDel_self {β : Type} (m : List (String × β)) (k : String)
    (hnd : (m.map Prod.fst).Nodup) : assocGet (assocDel m k) k = none := by
  induction m with
  | nil => rfl
  | cons p rest ih =>
    simp only [List.map_cons, List.nodup_cons] at hnd
    by_cases hk : p.1 = k
    · simp only [assocDel, if_pos hk]
      refine assocGet_notMem_keys rest k ?_
      intro h2
      refine hnd.1 ?_
      rw [hk]
      exact h2
    · simp only [assocDel, if_neg hk, assocGet, if_neg hk]
      exact ih hnd.2

theorem assocDel_keys_sublist {β : Type} (m : List (String × β)) (k : String) :
    ((assocDel m k).map Prod.fst).Sublist (m.map Prod.fst) := by
  induction m with
  | nil => simp [assocDel]
  | cons p rest ih =>
    by_cases hk : p.1 = k
    · simp only [assocDel, if_pos hk, List.map_cons]
      exact List.sublist_cons_self _ _
    · simp only [assocDel, if_neg hk, List.map_cons]
      exact ih.cons₂ _

theorem resetCounterList_notMem (rs : List String) (m : List (String × Nat))
    (c : String) (h : ¬ c ∈ rs) :
    assocGet (resetCounterList rs m) c = assocGet m c := by
  induction rs generalizing m with
  | nil => rfl
  | cons r rest ih =>
    simp only [List.mem_cons, not_or] at h
    have hstep : resetCounterList (r :: rest) m = resetCounterList rest (assocDel m r) := rfl
    rw [hstep, ih _ h.2, assocGet_assocDel_ne _ _ _ h.1]

theorem resetCounterList_mem (rs : List String) (m : List (String × Nat)) (c : String)
    (hnd : (m.map Prod.fst).Nodup) (h : c ∈ rs) :
    assocGet (resetCounterList rs m) c = none := by
  induction rs generalizing m with
  | nil => exact absurd h (by simp)
  | cons r rest ih =>
    have hstep : resetCounterList (r :: rest) m = resetCounterList rest (assocDel m r) := rfl
    rw [hstep]
    by_cases hc : c ∈ rest
    · exact ih (assocDel m r) ((assocDel_keys_sublist m r).nodup hnd) hc
    · have hcr : c = r := by
        rcases List.mem_cons.mp h with h2 | h2
        · exact h2
        · exact absurd h2 hc
      subst hcr
      rw [resetCounterList_notMem rest _ c hc]
      exact assocGet_assocDel_self m c hnd

theorem incCounter_absent (c : String) (m : List (String × Nat)) (hc : c ≠ "")
    (h : assocGet m c = none) : assocGet (incCounter c m) c = some 1 := by
  simp only [incCounter, if_neg hc, h]
  exact assocGet_assocSet_self m c 1

theorem incCounter_present (c : String) (m : List (String × Nat)) (v : Nat) (hc : c ≠ "")
    (h : assocGet m c = some v) : assocGet (incCounter c m) c = some (v + 1) := by
  simp only [incCounter, if_neg hc, h]
  exact assocGet_assocSet_self m c (v + 1)

/-- C5: every push of a document node ends in the single final push step,
which performs in order: delete the counters of the tag listed in its reset
list from the running map, then increment the tag counter itself (a missing
counter is created at 1, a present one at its value plus one), then store
the resulting map both as the new running map and as the counters snapshot
of the pushed node; the snapshot is a value of its own, so replacing the
running map afterwards leaves the node untouched. -/
theorem c5_push_counter_discipline :
    (∀ s nid, nid < s.nodes.length →
      (pushFinal s nid).counters
          = incCounter (getNode s nid).tagDefinition.counter
              (resetCounterList (getNode s nid).tagDefinition.resetCounter s.counters)
        ∧ (getNode (pushFinal s nid) nid).counters = (pushFinal s nid).counters
        ∧ ∀ m, getNode { pushFinal s nid with counters := m } nid
                 = getNode (pushFinal s nid) nid)
    ∧ (∀ (rs : List String) (m : List (String × Nat)) c,
        (m.map Prod.fst).Nodup → c ∈ rs → assocGet (resetCounterList rs m) c = none)
    ∧ (∀ c (m : List (String × Nat)), c ≠ "" → assocGet m c = none →
        assocGet (incCounter c m) c = some 1)
    ∧ (∀ c (m : List (String × Nat)) v, c ≠ "" → assocGet m c = some v →
        assocGet (incCounter c m) c = some (v + 1))
    ∧ (∀ fuel s nid, ∃ s2, pushNodeOnStackAux fuel s nid = pushFinal s2 nid) :=
  ⟨fun s nid h => ⟨pushFinal_counters s nid, pushFinal_node_counters s nid h, fun _ => rfl⟩,
   fun rs m c hnd hc => resetCounterList_mem rs m c hnd hc,
   fun c m hc h => incCounter_absent c m hc h,
   fun c m v hc h => incCounter_present c m v hc h,
   fun fuel s nid => pushAux_ends_in_pushFinal fuel s nid⟩

theorem c5_witness :
    (0 < (initState NewGrammar []).nodes.length
      ∧ (pushFinal (initState NewGrammar []) 0).counters
          = incCounter (getNode (initState NewGrammar []) 0).tagDefinition.counter
              (resetCounterList (getNode (initState NewGrammar []) 0).tagDefinition.resetCounter
                (initState NewGrammar []).counters))
    ∧ ((([("x", 2)] : List (String × Nat)).map Prod.fst).Nodup ∧ "x" ∈ ["x"]
        ∧ assocGet (resetCounterList ["x"] [("x", 2)]) "x" = none)
    ∧ ((("sec" : String) ≠ "" ∧ assocGet ([] : List (String × Nat)) "sec" = none)
        ∧ assocGet (incCounter "sec" []) "sec" = some 1)
    ∧ ((("sec" : String) ≠ "" ∧ assocGet [("sec", 4)] "sec" = some 4)
        ∧ assocGet (incCounter "sec" [("sec", 4)]) "sec" = some (4 + 1)) :=
  ⟨⟨by decide, (c5_push_counter_discipline.1 (initState NewGrammar []) 0 (by decide)).1⟩,
   ⟨by decide, by decide,
     c5_push_counter_discipline.2.1 ["x"] [("x", 2)] "x" (by decide) (by decide)⟩,
   ⟨⟨by decide, rfl⟩, c5_push_counter_discipline.2.2.1 "sec" [] (by decide) rfl⟩,
   ⟨⟨by decide, rfl⟩, c5_push_counter_discipline.2.2.2.1 "sec" [("sec", 4)] 4 (by decide) rfl⟩⟩

/- ### C3: lexical errors are non-fatal for the scan, fatal for the result -/
theorem scanner_next_nul (sc : Scanner) (h : sc.readOffset < sc.src.length)
    (hb : sc.src.get ⟨sc.readOffset, h⟩ = 0) :
    (∃ e : ScannerError,
      (Scanner.next sc).errors = sc.errors ++ [e]
        ∧ e.text = "illegal character NUL"
        ∧ e.pos.fromOff = sc.readOffset ∧ e.pos.toOff = sc.readOffset)
      ∧ (Scanner.next sc).readOffset = sc.readOffset + 1
      ∧ (Scanner.next sc).offset = sc.readOffset := by
  simp only [Scanner.next, Scanner.recordError]
  rw [dif_pos h]
  simp only [hb, if_pos rfl]
  exact ⟨⟨_, rfl, rfl, rfl, rfl⟩, rfl, rfl⟩

theorem scanner_next_badutf8 (sc : Scanner) (h : sc.readOffset < sc.src.length)
    (hb : 0x80 ≤ sc.src.get ⟨sc.readOffset, h⟩)
    (hd : decodeRune (sc.src.drop sc.readOffset) = (runeError, 1)) :
    (∃ e : ScannerError,
      (Scanner.next sc).errors = sc.errors ++ [e]
        ∧ e.text = "illegal UTF-8 encoding"
        ∧ e.pos.fromOff = sc.readOffset ∧ e.pos.toOff = sc.readOffset)
      ∧ (Scanner.next sc).readOffset = sc.readOffset + 1
      ∧ (Scanner.next sc).offset = sc.readOffset := by
  have hb0 : ¬ (sc.src.get ⟨sc.readOffset, h⟩ = 0) := by omega
  have hcond : ((runeError : Int), (1 : Nat)).1 = runeError
      ∧ ((runeError : Int), (1 : Nat)).2 = 1 := ⟨rfl, rfl⟩
  simp only [Scanner.next, Scanner.recordError]
  rw [dif_pos h, if_neg hb0, if_pos hb, hd, if_pos hcond]
  exact ⟨⟨_, rfl, rfl, rfl, rfl⟩, rfl, rfl⟩

/-- C3: a NUL byte is recorded as a non-fatal scanner error carrying its
offset and the scan moves past it; an invalid UTF-8 encoding is recorded the
same way and likewise consumed; and once parsing is over, a non-empty
scanner error list suppresses the document and surfaces the first recorded
error, while a run with no scanner error and no parse error returns the
parsed tree. -/
theorem c3_scanner_errors_nonfatal :
    (∀ sc : Scanner, ∀ h : sc.readOffset < sc.src.length,
      sc.src.get ⟨sc.readOffset, h⟩ = 0 →
        (∃ e : ScannerError,
          (Scanner.next sc).errors = sc.errors ++ [e]
            ∧ e.text = "illegal character NUL"
            ∧ e.pos.fromOff = sc.readOffset ∧ e.pos.toOff = sc.readOffset)
          ∧ (Scanner.next sc).readOffset = sc.readOffset + 1
          ∧ (Scanner.next sc).offset = sc.readOffset)
    ∧ (∀ sc : Scanner, ∀ h : sc.readOffset < sc.src.length,
        0x80 ≤ sc.src.get ⟨sc.readOffset, h⟩ →
        decodeRune (sc.src.drop sc.readOffset) = (runeError, 1) →
          (∃ e : ScannerError,
            (Scanner.next sc).errors = sc.errors ++ [e]
              ∧ e.text = "illegal UTF-8 encoding"
              ∧ e.pos.fromOff = sc.readOffset ∧ e.pos.toOff = sc.readOffset)
            ∧ (Scanner.next sc).readOffset = sc.readOffset + 1
            ∧ (Scanner.next sc).offset = sc.readOffset)
    ∧ (∀ (doc : Option PState) (err : Option ParseError) (e : ScannerError)
        (rest : List ScannerError),
        ParseMarkdownGlue doc err (e :: rest) = (none, some (MdError.scanErr e)))
    ∧ (∀ doc : Option PState, ParseMarkdownGlue doc none [] = (doc, none)) :=
  ⟨scanner_next_nul, scanner_next_badutf8,
   fun _ _ _ _ => rfl, fun _ => rfl⟩

theorem c3_witness :
    ((∃ e : ScannerError,
        (Scanner.next c3NulScanner).errors = c3NulScanner.errors ++ [e]
          ∧ e.text = "illegal character NUL"
          ∧ e.pos.fromOff = c3NulScanner.readOffset
          ∧ e.pos.toOff = c3NulScanner.readOffset)
      ∧ (Scanner.next c3NulScanner).readOffset = c3NulScanner.readOffset + 1)
    ∧ ((∃ e : ScannerError,
        (Scanner.next c3Utf8Scanner).errors = c3Utf8Scanner.errors ++ [e]
          ∧ e.text = "illegal UTF-8 encoding"
          ∧ e.pos.fromOff = c3Utf8Scanner.readOffset
          ∧ e.pos.toOff = c3Utf8Scanner.readOffset)
      ∧ (Scanner.next c3Utf8Scanner).readOffset = c3Utf8Scanner.readOffset + 1) := by
  refine ⟨?_, ?_⟩
  · have h := c3_scanner_errors_nonfatal.1 c3NulScanner (by decide) (by decide)
    exact ⟨h.1, h.2.1⟩
  · have h := c3_scanner_errors_nonfatal.2.1 c3Utf8Scanner (by decide) (by decide) (by decide)
    exact ⟨h.1, h.2.1⟩

/- ### C9: parent ownership and sibling links under appendChild/RemoveChild -/
theorem listModify_getD_ne {α : Type} (l : List α) (i n : Nat) (f : α → α) (d : α)
    (h : n ≠ i) : (listModify l i f).getD n d = l.getD n d := by
  induction l generalizing i n with
  | nil => rfl
  | cons a as ih =>
    cases i with
    | zero =>
      cases n with
      | zero => exact absurd rfl h
      | succ k => rfl
    | succ j =>
      cases n with
      | zero => rfl
      | succ k =>
        simp only [listModify, List.getD_cons_succ]
        exact ih j k (fun h2 => h (by rw [h2]))

theorem getNode_setNodeF_ne (s : PState) (i n : Nat) (f : DocumentNode → DocumentNode)
    (h : n ≠ i) : getNode (setNodeF s i f) n = getNode s n := by
  simp only [getNode, setNodeF]
  exact listModify_getD_ne _ _ _ _ _ h

theorem setNodeF_length (s : PState) (i : Nat) (f : DocumentNode → DocumentNode) :
    (setNodeF s i f).nodes.length = s.nodes.length := by
  simp only [setNodeF]
  exact listModify_length _ _ _

theorem removeChild_spec (s : PState) (p c : Nat) (hpc : p ≠ c)
    (hp : p < s.nodes.length) (hc : c < s.nodes.length)
    (hmem : (getNode s p).children.contains c = true) :
    (getNode (removeChild s p c) p).children = (getNode s p).children.erase c
    ∧ (getNode (removeChild s p c) c).parent = none
    ∧ (getNode (removeChild s p c) c).prevSibling = (getNode s c).prevSibling
    ∧ (getNode (removeChild s p c) c).nextSibling = (getNode s c).nextSibling
    ∧ ∀ i, i ≠ p → i ≠ c → getNode (removeChild s p c) i = getNode s i := by
  have hcp : c ≠ p := fun h => hpc h.symm
  have hrw : removeChild s p c
      = setNodeF (setNodeF s p (fun n => { n with children := n.children.erase c })) c
          (fun n => { n with parent := none }) := by
    simp only [removeChild, if_pos hmem]
  have hc1 : c < (setNodeF s p
      (fun n => { n with children := n.children.erase c })).nodes.length := by
    rw [setNodeF_length]
    exact hc
  refine ⟨?_, ?_, ?_, ?_, ?_⟩
  · rw [hrw, getNode_setNodeF_ne _ _ _ _ hpc, getNode_setNodeF_self _ _ _ hp]
  · rw [hrw, getNode_setNodeF_self _ _ _ hc1]
  · rw [hrw, getNode_setNodeF_self _ _ _ hc1]
    show (getNode (setNodeF s p _) c).prevSibling = _
    rw [getNode_setNodeF_ne _ _ _ _ hcp]
  · rw [hrw, getNode_setNodeF_self _ _ _ hc1]
    show (getNode (setNodeF s p _) c).nextSibling = _
    rw [getNode_setNodeF_ne _ _ _ _ hcp]
  · intro i hip hic
    rw [hrw, getNode_setNodeF_ne _ _ _ _ hic, getNode_setNodeF_ne _ _ _ _ hip]

theorem appendChild_spec (s : PState) (p c : Nat) (hpc : p ≠ c)
    (hp : p < s.nodes.length) (hc : c < s.nodes.length) :
    (getNode (appendChild s p c) p).children = (getNode s p).children ++ [c]
    ∧ (getNode (appendChild s p c) c).parent = some p
    ∧ ((getNode s p).children.getLast? = none →
        (getNode (appendChild s p c) c).prevSibling = (getNode s c).prevSibling
        ∧ (getNode (appendChild s p c) c).nextSibling = (getNode s c).nextSibling)
    ∧ (∀ x, (getNode s p).children.getLast? = some x →
        (getNode (appendChild s p c) c).prevSibling = some x
        ∧ (x ≠ p → x ≠ c → x < s.nodes.length →
            (getNode (appendChild s p c) x).nextSibling = some c)) := by
  have hcp : c ≠ p := fun h => hpc h.symm
  have hscrut : (getNode (setNodeF s c (fun n => { n with parent := some p })) p).children
      = (getNode s p).children := by
    rw [getNode_setNodeF_ne _ _ _ _ hpc]
  cases hL : (getNode s p).children.getLast? with
  | none =>
    have hA : appendChild s p c
        = setNodeF (setNodeF s c (fun n => { n with parent := some p })) p
            (fun n => { n with children := n.children ++ [c] }) := by
      simp only [appendChild]
      rw [hscrut, hL]
    have hp1 : p < (setNodeF s c
        (fun n => { n with parent := some p })).nodes.length := by
      rw [setNodeF_length]
      exact hp
    have hc0 : c < s.nodes.length := hc
    refine ⟨?_, ?_, fun _ => ⟨?_, ?_⟩, ?_⟩
    · rw [hA, getNode_setNodeF_self _ _ _ hp1]
      show (getNode (setNodeF s c _) p).children ++ [c] = _
      rw [hscrut]
    · rw [hA, getNode_setNodeF_ne _ _ _ _ hcp, getNode_setNodeF_self _ _ _ hc0]
    · rw [hA, getNode_setNodeF_ne _ _ _ _ hcp, getNode_setNodeF_self _ _ _ hc0]
    · rw [hA, getNode_setNodeF_ne _ _ _ _ hcp, getNode_setNodeF_self _ _ _ hc0]
    · intro x hx
      exact absurd hx (by simp)
  | some x =>
    have hA : appendChild s p c
        = setNodeF (setNodeF (setNodeF (setNodeF s c
              (fun n => { n with parent := some p })) x
              (fun n => { n with nextSibling := some c })) c
              (fun n => { n with prevSibling := some x })) p
            (fun n => { n with children := n.children ++ [c] }) := by
      simp only [appendChild]
      rw [hscrut, hL]
    have h1 : ∀ t : PState, ∀ i j : Nat, ∀ f : DocumentNode → DocumentNode,
        t.nodes.length = s.nodes.length →
        (setNodeF t i f).nodes.length = s.nodes.length := by
      intro t i j f ht
      rw [setNodeF_length]
      exact ht
    have hlen1 : (setNodeF s c (fun n => { n with parent := some p })).nodes.length
        = s.nodes.length := setNodeF_length _ _ _
    have hlen2 : (setNodeF (setNodeF s c (fun n => { n with parent := some p })) x
        (fun n => { n with nextSibling := some c })).nodes.length = s.nodes.length := by
      rw [setNodeF_length]
      exact hlen1
    have hlen3 : (setNodeF (setNodeF (setNodeF s c (fun n => { n with parent := some p })) x
        (fun n => { n with nextSibling := some c })) c
        (fun n => { n with prevSibling := some x })).nodes.length = s.nodes.length := by
      rw [setNodeF_length]
      exact hlen2
    have hp3 : p < (setNodeF (setNodeF (setNodeF s c
        (fun n => { n with parent := some p })) x
        (fun n => { n with nextSibling := some c })) c
        (fun n => { n with prevSibling := some x })).nodes.length := by
      rw [hlen3]
      exact hp
    have hc2 : c < (setNodeF (setNodeF s c (fun n => { n with parent := some p })) x
        (fun n => { n with nextSibling := some c })).nodes.length := by
      rw [hlen2]
      exact hc
    refine ⟨?_, ?_, ?_, ?_⟩
    · rw [hA, getNode_setNodeF_self _ _ _ hp3]
      show (getNode (setNodeF (setNodeF (setNodeF s c _) x _) c _) p).children ++ [c] = _
      rw [getNode_setNodeF_ne _ _ _ _ hpc]
      by_cases hxp : x = p
      · subst hxp
        have hx1 : x < (setNodeF s c (fun n => { n with parent := some x })).nodes.length := by
          rw [hlen1]
          exact hp
        rw [getNode_setNodeF_self _ _ _ hx1]
        show (getNode (setNodeF s c _) x).children ++ [c] = _
        rw [hscrut]
      · have hpx : p ≠ x := fun h => hxp h.symm
        rw [getNode_setNodeF_ne _ _ _ _ hpx, hscrut]
    · rw [hA, getNode_setNodeF_ne _ _ _ _ hcp, getNode_setNodeF_self _ _ _ hc2]
      show (getNode (setNodeF (setNodeF s c _) x _) c).parent = some p
      by_cases hxc : x = c
      · subst hxc
        have hx1 : x < (setNodeF s x (fun n => { n with parent := some p })).nodes.length := by
          rw [setNodeF_length]
          exact hc
        rw [getNode_setNodeF_self _ _ _ hx1]
        show (getNode (setNodeF s x _) x).parent = some p
        rw [getNode_setNodeF_self _ _ _ hc]
      · have hcx : c ≠ x := fun h => hxc h.symm
        rw [getNode_setNodeF_ne _ _ _ _ hcx, getNode_setNodeF_self _ _ _ hc]
    · intro h2
      exact absurd h2 (by simp)
    · intro y hy
      have hyx : y = x := by
        injection hy with h3
        exact h3.symm
      subst hyx
      constructor
      · rw [hA, getNode_setNodeF_ne _ _ _ _ hcp, getNode_setNodeF_self _ _ _ hc2]
      · intro hyp hyc hylen
        have hy3 : getNode (appendChild s p c) y
            = getNode (setNodeF (setNodeF s c
                (fun n => { n with parent := some p })) y
                (fun n => { n with nextSibling := some c })) y := by
          rw [hA, getNode_setNodeF_ne _ _ _ _ hyp, getNode_setNodeF_ne _ _ _ _ hyc]
        have hy1 : y < (setNodeF s c
            (fun n => { n with parent := some p })).nodes.length := by
          rw [hlen1]
          exact hylen
        rw [hy3, getNode_setNodeF_self _ _ _ hy1]

/-- C9 as stated is false: RemoveChild does not touch sibling links, so after
appending two children and removing the first, the remaining child of the
parent still records the removed node as its previous sibling, and the
removed node still points at its former neighbour. -/
theorem c9_sibling_links_counterexample :
    (getNode (removeChild (appendChild (appendChild c9State 0 1) 0 2) 0 1) 0).children = [2]
    ∧ (getNode (removeChild (appendChild (appendChild c9State 0 1) 0 2) 0 1) 1).parent = none
    ∧ (getNode (removeChild (appendChild (appendChild c9State 0 1) 0 2) 0 1) 2).prevSibling
        = some 1
    ∧ (getNode (removeChild (appendChild (appendChild c9State 0 1) 0 2) 0 1) 1).nextSibling
        = some 2 := by
  refine ⟨?_, ?_, ?_, ?_⟩ <;> rfl

/-- C9 amended: appendChild gives the child the single owning parent, appends
it to that parent's child list and links it behind the previous last child;
RemoveChild erases the child from the parent's list and clears its Parent
field, but leaves every PrevSibling and NextSibling reference — of the
removed node, of its former neighbours and of every other node — exactly as
it was, so stale sibling links survive a removal. -/
theorem c9_sibling_links_amended :
    (∀ s p c, p ≠ c → p < s.nodes.length → c < s.nodes.length →
      (getNode (appendChild s p c) p).children = (getNode s p).children ++ [c]
      ∧ (getNode (appendChild s p c) c).parent = some p
      ∧ ((getNode s p).children.getLast? = none →
          (getNode (appendChild s p c) c).prevSibling = (getNode s c).prevSibling
          ∧ (getNode (appendChild s p c) c).nextSibling = (getNode s c).nextSibling)
      ∧ (∀ x, (getNode s p).children.getLast? = some x →
          (getNode (appendChild s p c) c).prevSibling = some x
          ∧ (x ≠ p → x ≠ c → x < s.nodes.length →
              (getNode (appendChild s p c) x).nextSibling = some c)))
    ∧ (∀ s p c, p ≠ c → p < s.nodes.length → c < s.nodes.length →
        (getNode s p).children.contains c = true →
      (getNode (removeChild s p c) p).children = (getNode s p).children.erase c
      ∧ (getNode (removeChild s p c) c).parent = none
      ∧ (getNode (removeChild s p c) c).prevSibling = (getNode s c).prevSibling
      ∧ (getNode (removeChild s p c) c).nextSibling = (getNode s c).nextSibling
      ∧ ∀ i, i ≠ p → i ≠ c → getNode (removeChild s p c) i = getNode s i) :=
  ⟨fun s p c hpc hp hc => appendChild_spec s p c hpc hp hc,
   fun s p c hpc hp hc hmem => removeChild_spec s p c hpc hp hc hmem⟩

theorem c9_witness :
    ((0 : Nat) ≠ 1 ∧ 0 < c9State.nodes.length ∧ 1 < c9State.nodes.length
      ∧ (getNode (appendChild c9State 0 1) 0).children = (getNode c9State 0).children ++ [1]
      ∧ (getNode (appendChild c9State 0 1) 1).parent = some 0)
    ∧ ((getNode (appendChild c9State 0 1) 0).children.contains 1 = true
      ∧ (getNode (removeChild (appendChild c9State 0 1) 0 1) 1).prevSibling
          = (getNode (appendChild c9State 0 1) 1).prevSibling) := by
  refine ⟨⟨by decide, by decide, by decide, ?_, ?_⟩, ⟨by decide, ?_⟩⟩
  · exact (c9_sibling_links_amended.1 c9State 0 1 (by decide) (by decide) (by decide)).1
  · exact (c9_sibling_links_amended.1 c9State 0 1 (by decide) (by decide) (by decide)).2.1
  · exact (c9_sibling_links_amended.2 (appendChild c9State 0 1) 0 1 (by decide) (by decide)
      (by decide) (by decide)).2.2.1

/- ### C4: unknown names in ordinary content -/
theorem listModify_append_length {α : Type} (l : List α) (a : α) (f : α → α) :
    listModify (l ++ [a]) l.length f = l ++ [f a] := by
  induction l with
  | nil => rfl
  | cons b bs ih => simp [listModify, ih]

theorem getD_append_length {α : Type} (l : List α) (a : α) (d : α) :
    (l ++ [a]).getD l.length d = a := by
  induction l with
  | nil => rfl
  | cons b bs ih => simpa using ih

theorem appendTextToParent_styleNodes (s : PState) (tc : TextChild)
    (hss : s.styleStack = []) :
    (appendTextToParent s tc).styleNodes = s.styleNodes := by
  simp only [appendTextToParent, hss]
  cases s.nodeStack <;> rfl

theorem appendTextToParent_logs (s : PState) (tc : TextChild) :
    (appendTextToParent s tc).logs = s.logs := by
  simp only [appendTextToParent]
  cases hss : s.styleStack with
  | nil =>
    cases hns : s.nodeStack with
    | nil => rfl
    | cons a l => rfl
  | cons a l => rfl

theorem appendTextToParent_styleStack (s : PState) (tc : TextChild) :
    (appendTextToParent s tc).styleStack = s.styleStack := by
  simp only [appendTextToParent]
  cases hss : s.styleStack with
  | nil =>
    cases hns : s.nodeStack with
    | nil => exact hss
    | cons a l => exact hss
  | cons a l => exact hss

theorem handleEntityTokTail_unknown (s : PState) (str : String)
    (hn : s.grammar.GetEntity (match splitAtColon str with
            | some q => q.1 | none => str) = none) :
    handleEntityTokTail s str
      = { s with toks := (parseAttributes none s.toks []).2,
                 logs := s.logs ++ [LogEntry.unknownEntity
                   (match splitAtColon str with | some q => q.1 | none => str)] } := by
  cases hsp : splitAtColon str with
  | none =>
    simp only [hsp] at hn
    simp only [handleEntityTokTail, hsp, hn]
  | some q =>
    simp only [hsp] at hn
    simp only [handleEntityTokTail, hsp, hn]

theorem handleNormalSection_unknown (s : PState) (name : String)
    (hsp : splitAtColon name = none) (hn : s.grammar.GetTag name = none) :
    handleNormalSection s name
      = (let tag := (s.grammar.GetTag "#p").getD dummyTagDef
         let res := openTag { s with logs := s.logs ++ [LogEntry.unknownTag name] } tag
         if tag.sectionMode = sectionTable then { res.1 with tableInbody := false }
         else res.1) := by
  simp only [handleNormalSection, hsp, hn]

theorem appendTextToParent_toks (s : PState) (tc : TextChild) :
    (appendTextToParent s tc).toks = s.toks := by
  simp only [appendTextToParent]
  cases hss : s.styleStack with
  | nil =>
    cases hns : s.nodeStack with
    | nil => rfl
    | cons a l => rfl
  | cons a l => rfl

theorem pushStyle_toks (s : PState) (st : StyleNode) :
    (pushStyle s st).toks = s.toks := by
  simp only [pushStyle]
  rw [appendTextToParent_toks]

theorem pushStyle_styleNodes (s : PState) (st : StyleNode) (hss : s.styleStack = []) :
    (pushStyle s st).styleNodes = s.styleNodes ++ [st] := by
  simp only [pushStyle]
  rw [appendTextToParent_styleNodes]
  exact hss

theorem pushStyle_logs (s : PState) (st : StyleNode) :
    (pushStyle s st).logs = s.logs := by
  simp only [pushStyle]
  rw [appendTextToParent_logs]

theorem pushStyle_styleStack (s : PState) (st : StyleNode) :
    (pushStyle s st).styleStack = s.styleNodes.length :: s.styleStack := by
  simp only [pushStyle]
  rw [appendTextToParent_styleStack]

theorem pushStyle_getStyleNode (s : PState) (st : StyleNode) (hss : s.styleStack = []) :
    getStyleNode (pushStyle s st) s.styleNodes.length = st := by
  simp only [getStyleNode]
  rw [pushStyle_styleNodes s st hss]
  exact getD_append_length _ _ _

theorem handleStyleTokTail_unknown (s : PState) (str v : String) (rest : List Tok)
    (hbrace : str ≠ "\x7d") (hstar : str ≠ "*") (hunder : str ≠ "_")
    (htoks : s.toks = Tok.TokenValue v :: rest) (hss : s.styleStack = [])
    (hn : s.grammar.GetStyle (nameOfValue v).1 = none) :
    (handleStyleTokTail s str).styleNodes
      = s.styleNodes
          ++ [{ name := "-css-", styleDefinition := none,
                attributes := (styleAttrsOfValues rest
                    [((nameOfValue v).1, (nameOfValue v).2)]).1,
                value := "", text := [] }]
    ∧ (handleStyleTokTail s str).logs = s.logs
    ∧ (handleStyleTokTail s str).styleStack = [s.styleNodes.length] := by
  have hss2 : ({ s with toks := rest } : PState).styleStack = [] := hss
  cases hsp : splitAtColon v with
  | none =>
    simp only [nameOfValue, hsp] at hn
    simp only [handleStyleTokTail, if_neg hbrace, if_neg hstar, if_neg hunder, htoks,
      hsp, hn, nameOfValue]
    refine ⟨?_, ?_, ?_⟩
    · simp only [setStyleF]
      rw [pushStyle_toks, pushStyle_getStyleNode _ _ hss2, pushStyle_styleNodes _ _ hss2]
      rw [show ({ s with toks := rest } : PState).styleNodes = s.styleNodes from rfl]
      exact listModify_append_length _ _ _
    · simp only [setStyleF]
      rw [pushStyle_logs]
    · simp only [setStyleF]
      rw [pushStyle_styleStack]
      rw [show ({ s with toks := rest } : PState).styleStack = s.styleStack from rfl, hss]
  | some q =>
    simp only [nameOfValue, hsp] at hn
    simp only [handleStyleTokTail, if_neg hbrace, if_neg hstar, if_neg hunder, htoks,
      hsp, hn, nameOfValue]
    refine ⟨?_, ?_, ?_⟩
    · simp only [setStyleF]
      rw [pushStyle_toks, pushStyle_getStyleNode _ _ hss2, pushStyle_styleNodes _ _ hss2]
      rw [show ({ s with toks := rest } : PState).styleNodes = s.styleNodes from rfl]
      exact listModify_append_length _ _ _
    · simp only [setStyleF]
      rw [pushStyle_logs]
    · simp only [setStyleF]
      rw [pushStyle_styleStack]
      rw [show ({ s with toks := rest } : PState).styleStack = s.styleStack from rfl, hss]

theorem nameOfValue_fst (v : String) :
    (nameOfValue v).1 = (match splitAtColon v with | some q => q.1 | none => v) := by
  simp only [nameOfValue]
  cases splitAtColon v <;> rfl

/-- C4 as stated is false for styles: an unregistered named style is not
dropped — the resolver creates an anonymous "-css-" style node carrying the
name and value as an attribute, emits a reference to it into the tree, and
logs nothing. -/
theorem c4_unknown_style_counterexample :
    NewGrammar.GetStyle "color" = none
    ∧ (handleStyleTok (initState NewGrammar [Tok.TokenValue "color:red"]) "\x7b").styleNodes
        = [{ name := "-css-", styleDefinition := none, attributes := [("color", "red")],
             value := "", text := [] }]
    ∧ (handleStyleTok (initState NewGrammar [Tok.TokenValue "color:red"]) "\x7b").logs = []
    ∧ (getNode (handleStyleTok (initState NewGrammar [Tok.TokenValue "color:red"]) "\x7b")
          0).text
        = [TextChild.styleRef 0] :=
  ⟨rfl, rfl, rfl, rfl⟩

/-- C4 amended: an unregistered section tag name is not fatal — the section
opens through the paragraph tag definition with a warning logged; an
unregistered entity name is logged and nothing is emitted, the state is
otherwise unchanged; an unregistered named style is neither fatal nor
logged — it becomes an anonymous "-css-" style node that is pushed and
emitted into the tree. -/
theorem c4_unknown_names_amended :
    (∀ s name, splitAtColon name = none → s.grammar.GetTag name = none →
      handleNormalSection s name
        = (let tag := (s.grammar.GetTag "#p").getD dummyTagDef
           let res := openTag { s with logs := s.logs ++ [LogEntry.unknownTag name] } tag
           if tag.sectionMode = sectionTable then { res.1 with tableInbody := false }
           else res.1))
    ∧ (∀ s str, s.grammar.GetEntity (nameOfValue str).1 = none →
        handleEntityTokTail s str
          = { s with toks := (parseAttributes none s.toks []).2,
                     logs := s.logs ++ [LogEntry.unknownEntity (nameOfValue str).1] })
    ∧ (∀ s str v rest, str ≠ "\x7d" → str ≠ "*" → str ≠ "_" →
        s.toks = Tok.TokenValue v :: rest → s.styleStack = [] →
        s.grammar.GetStyle (nameOfValue v).1 = none →
        (handleStyleTokTail s str).styleNodes
            = s.styleNodes
                ++ [{ name := "-css-", styleDefinition := none,
                      attributes := (styleAttrsOfValues rest
                          [((nameOfValue v).1, (nameOfValue v).2)]).1,
                      value := "", text := [] }]
          ∧ (handleStyleTokTail s str).logs = s.logs
          ∧ (handleStyleTokTail s str).styleStack = [s.styleNodes.length]) := by
  refine ⟨fun s name hsp hn => handleNormalSection_unknown s name hsp hn, ?_,
    fun s str v rest h1 h2 h3 h4 h5 h6 =>
      handleStyleTokTail_unknown s str v rest h1 h2 h3 h4 h5 h6⟩
  intro s str hn
  rw [nameOfValue_fst] at hn
  have h := handleEntityTokTail_unknown s str hn
  rw [h, nameOfValue_fst]

theorem c4_witness :
    (splitAtColon "#nosuch" = none ∧ NewGrammar.GetTag "#nosuch" = none
      ∧ handleNormalSection (initState NewGrammar []) "#nosuch"
          = (let tag := ((initState NewGrammar []).grammar.GetTag "#p").getD dummyTagDef
             let res := openTag { initState NewGrammar [] with
                 logs := (initState NewGrammar []).logs
                     ++ [LogEntry.unknownTag "#nosuch"] } tag
             if tag.sectionMode = sectionTable then { res.1 with tableInbody := false }
             else res.1))
    ∧ (NewGrammar.GetEntity "nope" = none
      ∧ handleEntityTokTail (initState NewGrammar []) "nope"
          = { initState NewGrammar [] with
              toks := (parseAttributes none (initState NewGrammar []).toks []).2,
              logs := (initState NewGrammar []).logs
                  ++ [LogEntry.unknownEntity (nameOfValue "nope").1] })
    ∧ (NewGrammar.GetStyle "color" = none
      ∧ (handleStyleTokTail (initState NewGrammar [Tok.TokenValue "color:red"]) "\x7b").logs
          = (initState NewGrammar [Tok.TokenValue "color:red"]).logs) := by
  refine ⟨⟨by decide, by decide, ?_⟩, ⟨by decide, ?_⟩, ⟨by decide, ?_⟩⟩
  · exact c4_unknown_names_amended.1 (initState NewGrammar []) "#nosuch"
      (by decide) (by decide)
  · exact c4_unknown_names_amended.2.1 (initState NewGrammar []) "nope" (by decide)
  · exact (c4_unknown_names_amended.2.2 (initState NewGrammar [Tok.TokenValue "color:red"])
      "\x7b" "color:red" [] (by decide) (by decide) (by decide) rfl rfl (by decide)).2.1

theorem handleEnum_decomp (s : PState) (m : String) (i : Nat) :
    handleEnum s m i
      = enumItemStep (enumContainerStep s m i)
          ((s.grammar.GetTag "#li").getD dummyTagDef) i := rfl

theorem c1_item_strict (g : Grammar) (m : String) (i1 i2 : Nat)
    (hli : g.GetTag "#li" = some liTag) :
    enumItemStep (c1AfterUl g m i1 i2) liTag i2 = c1Strict g m i1 i2 := by
  simp only [enumItemStep, newDocumentNode,
    show (c1AfterUl g m i1 i2).grammar = g from rfl,
    show liTag.name = "#li" from rfl, hli]
  rfl

theorem c1_strict_dash (g : Grammar) (i1 i2 : Nat) (h : i1 < i2)
    (hul : g.GetTag "#ul" = some ulTag) (hli : g.GetTag "#li" = some liTag) :
    handleEnum (c1State1 g "-" i1) "-" i2 = c1Strict g "-" i1 i2 := by
  have hnle : ¬ (i2 ≤ i1) := Nat.not_le.mpr h
  have hipp1 : isPossibleParent (c1State1 g "-" i1) (c1LiNode i1) ulTag i2 = none := by
    simp [isPossibleParent, isPossibleParentAux, c1LiNode, ulTag, liTag]
  have hipp2 : isPossibleParent (c1State1 g "-" i1) (c1UlNode "-" i1) ulTag i2 = some 0 := by
    simp [isPossibleParent, isPossibleParentAux, c1UlNode, c1Container, ulTag, h]
  have hscan : enumScanAux (c1State1 g "-" i1) ulTag i2 [liTag, ulTag] [2, 1, 0] 0 none
      = (some 1, none) := by
    simp only [enumScanAux, show getNode (c1State1 g "-" i1) 2 = c1LiNode i1 from rfl,
      show getNode (c1State1 g "-" i1) 1 = c1UlNode "-" i1 from rfl, hipp1, hipp2]
    simp [liTag, hnle]
  have hclose : closeTags (c1State1 g "-" i1) 1 = c1AfterClose g "-" i1 := rfl
  have hnd : newDocumentNode (c1AfterClose g "-" i1) "#ul" i2 = (c1StateB g "-" i1 i2, 3) := by
    simp only [newDocumentNode, show (c1AfterClose g "-" i1).grammar = g from rfl, hul]
    rfl
  have hmd : matchDefaultsIdx [ulTag] ulTag i1 i2 = some 0 := by
    simp [matchDefaultsIdx, ulTag, h]
  have hloop : openTag2LoopAux 1 [ulTag] i2 (c1StateB g "-" i1 i2)
      = (c1StateB g "-" i1 i2, some 0) := by
    simp only [openTag2LoopAux]
    rw [show (c1StateB g "-" i1 i2).tagStack = [ulTag] from rfl,
        show (c1StateB g "-" i1 i2).nodeStack = [1, 0] from rfl]
    simp only [show getNode (c1StateB g "-" i1 i2) 1 = c1UlNode "-" i1 from rfl,
      show (c1UlNode "-" i1).indent = i1 from rfl, hmd]
  have hopen : openTag2 (c1StateB g "-" i1 i2) ulTag 3 true = c1AfterUl g "-" i1 i2 := by
    have hcs : closeStyles (c1StateB g "-" i1 i2) = c1StateB g "-" i1 i2 := rfl
    have hdc : defaultChain g ulTag = [ulTag] := rfl
    simp only [openTag2, hcs, if_pos rfl,
      show (c1StateB g "-" i1 i2).grammar = g from rfl, hdc,
      show (c1StateB g "-" i1 i2).tagStack.length = 1 from rfl,
      show (getNode (c1StateB g "-" i1 i2) 3).indent = i2 from rfl, hloop]
    rfl
  have hcont : enumContainerStep (c1State1 g "-" i1) "-" i2 = c1AfterUl g "-" i1 i2 := by
    simp only [enumContainerStep, if_true,
      show (c1State1 g "-" i1).grammar = g from rfl, hul, Option.getD_some,
      show (c1State1 g "-" i1).tagStack = [liTag, ulTag] from rfl,
      show (c1State1 g "-" i1).nodeStack = [2, 1, 0] from rfl,
      show ([liTag, ulTag] : List TagDefinition).length = 2 from rfl,
      hscan, hclose, show ulTag.name = "#ul" from rfl, hnd, hopen]
  rw [handleEnum_decomp, hcont, show (c1State1 g "-" i1).grammar = g from rfl, hli,
    Option.getD_some]
  exact c1_item_strict g "-" i1 i2 hli

/- plus-marker strict -/
theorem c1_strict_plus (g : Grammar) (i1 i2 : Nat) (h : i1 < i2)
    (hol : g.GetTag "#ol" = some olTag) (hli : g.GetTag "#li" = some liTag) :
    handleEnum (c1State1 g "+" i1) "+" i2 = c1Strict g "+" i1 i2 := by
  have hnle : ¬ (i2 ≤ i1) := Nat.not_le.mpr h
  have hipp1 : isPossibleParent (c1State1 g "+" i1) (c1LiNode i1) olTag i2 = none := by
    simp [isPossibleParent, isPossibleParentAux, c1LiNode, olTag, liTag]
  have hipp2 : isPossibleParent (c1State1 g "+" i1) (c1UlNode "+" i1) olTag i2 = some 0 := by
    simp [isPossibleParent, isPossibleParentAux, c1UlNode, c1Container, olTag, h]
  have hscan : enumScanAux (c1State1 g "+" i1) olTag i2 [liTag, olTag] [2, 1, 0] 0 none
      = (some 1, none) := by
    simp only [enumScanAux, show getNode (c1State1 g "+" i1) 2 = c1LiNode i1 from rfl,
      show getNode (c1State1 g "+" i1) 1 = c1UlNode "+" i1 from rfl, hipp1, hipp2]
    simp [liTag, hnle]
  have hclose : closeTags (c1State1 g "+" i1) 1 = c1AfterClose g "+" i1 := rfl
  have hnd : newDocumentNode (c1AfterClose g "+" i1) "#ol" i2 = (c1StateB g "+" i1 i2, 3) := by
    simp only [newDocumentNode, show (c1AfterClose g "+" i1).grammar = g from rfl, hol]
    rfl
  have hmd : matchDefaultsIdx [olTag] olTag i1 i2 = some 0 := by
    simp [matchDefaultsIdx, olTag, h]
  have hloop : openTag2LoopAux 1 [olTag] i2 (c1StateB g "+" i1 i2)
      = (c1StateB g "+" i1 i2, some 0) := by
    simp only [openTag2LoopAux]
    rw [show (c1StateB g "+" i1 i2).tagStack = [olTag] from rfl,
        show (c1StateB g "+" i1 i2).nodeStack = [1, 0] from rfl]
    simp only [show getNode (c1StateB g "+" i1 i2) 1 = c1UlNode "+" i1 from rfl,
      show (c1UlNode "+" i1).indent = i1 from rfl, hmd]
  have hopen : openTag2 (c1StateB g "+" i1 i2) olTag 3 true = c1AfterUl g "+" i1 i2 := by
    have hcs : closeStyles (c1StateB g "+" i1 i2) = c1StateB g "+" i1 i2 := rfl
    have hdc : defaultChain g olTag = [olTag] := rfl
    simp only [openTag2, hcs, if_pos rfl,
      show (c1StateB g "+" i1 i2).grammar = g from rfl, hdc,
      show (c1StateB g "+" i1 i2).tagStack.length = 1 from rfl,
      show (getNode (c1StateB g "+" i1 i2) 3).indent = i2 from rfl, hloop]
    rfl
  have hcont : enumContainerStep (c1State1 g "+" i1) "+" i2 = c1AfterUl g "+" i1 i2 := by
    simp only [enumContainerStep, if_true, if_false,
      show ((("+" : String) = "-")) = False from eq_false (by decide),
      show (c1State1 g "+" i1).grammar = g from rfl, hol, Option.getD_some,
      show (c1State1 g "+" i1).tagStack = [liTag, olTag] from rfl,
      show (c1State1 g "+" i1).nodeStack = [2, 1, 0] from rfl,
      show ([liTag, olTag] : List TagDefinition).length = 2 from rfl,
      hscan, hclose, show olTag.name = "#ol" from rfl, hnd, hopen]
  rw [handleEnum_decomp, hcont, show (c1State1 g "+" i1).grammar = g from rfl, hli,
    Option.getD_some]
  simp only [enumItemStep, newDocumentNode,
    show (c1AfterUl g "+" i1 i2).grammar = g from rfl,
    show liTag.name = "#li" from rfl, hli]
  rfl

theorem c1_equal_dash (g : Grammar) (i : Nat)
    (hul : g.GetTag "#ul" = some ulTag) (hli : g.GetTag "#li" = some liTag) :
    handleEnum (c1State1 g "-" i) "-" i = c1Equal g "-" i := by
  have hipp1 : isPossibleParent (c1State1 g "-" i) (c1LiNode i) ulTag i = none := by
    simp [isPossibleParent, isPossibleParentAux, c1LiNode, ulTag, liTag]
  have hipp2 : isPossibleParent (c1State1 g "-" i) (c1UlNode "-" i) ulTag i = none := by
    simp [isPossibleParent, isPossibleParentAux, c1UlNode, c1Container, ulTag]
  have hscan : enumScanAux (c1State1 g "-" i) ulTag i [liTag, ulTag] [2, 1, 0] 0 none
      = (none, some 1) := by
    simp only [enumScanAux, show getNode (c1State1 g "-" i) 2 = c1LiNode i from rfl,
      show getNode (c1State1 g "-" i) 1 = c1UlNode "-" i from rfl, hipp1, hipp2]
    simp [liTag, ulTag, c1UlNode, c1Container, c1LiNode]
  have hclose : closeTags (c1State1 g "-" i) 1 = c1AfterClose g "-" i := rfl
  have hset : setNodeF (c1AfterClose g "-" i) 1
      (fun n => { n with indent := i }) = c1AfterClose g "-" i := rfl
  have hcont : enumContainerStep (c1State1 g "-" i) "-" i = c1AfterClose g "-" i := by
    simp only [enumContainerStep, if_true,
      show (c1State1 g "-" i).grammar = g from rfl, hul, Option.getD_some,
      show (c1State1 g "-" i).tagStack = [liTag, ulTag] from rfl,
      show (c1State1 g "-" i).nodeStack = [2, 1, 0] from rfl,
      show ([liTag, ulTag] : List TagDefinition).length = 2 from rfl,
      hscan, show ([liTag, ulTag].getD 1 dummyTagDef) = ulTag from rfl,
      eq_self_iff_true, hclose,
      show (c1AfterClose g "-" i).nodeStack.headD 0 = 1 from rfl, hset]
  rw [handleEnum_decomp, hcont, show (c1State1 g "-" i).grammar = g from rfl, hli,
    Option.getD_some]
  simp only [enumItemStep, newDocumentNode,
    show (c1AfterClose g "-" i).grammar = g from rfl,
    show liTag.name = "#li" from rfl, hli]
  rfl

theorem c1_equal_plus (g : Grammar) (i : Nat)
    (hol : g.GetTag "#ol" = some olTag) (hli : g.GetTag "#li" = some liTag) :
    handleEnum (c1State1 g "+" i) "+" i = c1Equal g "+" i := by
  have hipp1 : isPossibleParent (c1State1 g "+" i) (c1LiNode i) olTag i = none := by
    simp [isPossibleParent, isPossibleParentAux, c1LiNode, olTag, liTag]
  have hipp2 : isPossibleParent (c1State1 g "+" i) (c1UlNode "+" i) olTag i = none := by
    simp [isPossibleParent, isPossibleParentAux, c1UlNode, c1Container, olTag]
  have hscan : enumScanAux (c1State1 g "+" i) olTag i [liTag, olTag] [2, 1, 0] 0 none
      = (none, some 1) := by
    simp only [enumScanAux, show getNode (c1State1 g "+" i) 2 = c1LiNode i from rfl,
      show getNode (c1State1 g "+" i) 1 = c1UlNode "+" i from rfl, hipp1, hipp2]
    simp [liTag, olTag, c1UlNode, c1Container, c1LiNode]
  have hclose : closeTags (c1State1 g "+" i) 1 = c1AfterClose g "+" i := rfl
  have hset : setNodeF (c1AfterClose g "+" i) 1
      (fun n => { n with indent := i }) = c1AfterClose g "+" i := rfl
  have hcont : enumContainerStep (c1State1 g "+" i) "+" i = c1AfterClose g "+" i := by
    simp only [enumContainerStep, if_true, if_false,
      show ((("+" : String) = "-")) = False from eq_false (by decide),
      show (c1State1 g "+" i).grammar = g from rfl, hol, Option.getD_some,
      show (c1State1 g "+" i).tagStack = [liTag, olTag] from rfl,
      show (c1State1 g "+" i).nodeStack = [2, 1, 0] from rfl,
      show ([liTag, olTag] : List TagDefinition).length = 2 from rfl,
      hscan, show ([liTag, olTag].getD 1 dummyTagDef) = olTag from rfl,
      eq_self_iff_true, hclose,
      show (c1AfterClose g "+" i).nodeStack.headD 0 = 1 from rfl, hset]
  rw [handleEnum_decomp, hcont, show (c1State1 g "+" i).grammar = g from rfl, hli,
    Option.getD_some]
  simp only [enumItemStep, newDocumentNode,
    show (c1AfterClose g "+" i).grammar = g from rfl,
    show liTag.name = "#li" from rfl, hli]
  rfl

theorem c1_mixed (g : Grammar) (i : Nat)
    (hol : g.GetTag "#ol" = some olTag) (hli : g.GetTag "#li" = some liTag) :
    handleEnum (c1State1 g "-" i) "+" i = c1Mixed g i := by
  have hipp1 : isPossibleParent (c1State1 g "-" i) (c1LiNode i) olTag i = none := by
    simp [isPossibleParent, isPossibleParentAux, c1LiNode, olTag, liTag]
  have hipp2 : isPossibleParent (c1State1 g "-" i) (c1UlNode "-" i) olTag i = none := by
    simp [isPossibleParent, isPossibleParentAux, c1UlNode, c1Container, olTag, ulTag]
  have hscan : enumScanAux (c1State1 g "-" i) olTag i [liTag, ulTag] [2, 1, 0] 0 none
      = (none, some 1) := by
    simp only [enumScanAux, show getNode (c1State1 g "-" i) 2 = c1LiNode i from rfl,
      show getNode (c1State1 g "-" i) 1 = c1UlNode "-" i from rfl, hipp1, hipp2]
    simp [liTag, ulTag, c1UlNode, c1Container, c1LiNode]
  have hclose : closeTags (c1State1 g "-" i) 0 = c1MixedClosed g i := rfl
  have hnd : newDocumentNode (c1MixedClosed g i) "#ol" i = (c1MixedB g i, 3) := by
    simp only [newDocumentNode, show (c1MixedClosed g i).grammar = g from rfl, hol]
    rfl
  have hopen : openTag2 (c1MixedB g i) olTag 3 true = c1MixedUl g i := by
    have hcs : closeStyles (c1MixedB g i) = c1MixedB g i := rfl
    have hdc : defaultChain g olTag = [olTag] := rfl
    simp only [openTag2, hcs, if_pos rfl,
      show (c1MixedB g i).grammar = g from rfl, hdc,
      show (c1MixedB g i).tagStack.length = 0 from rfl,
      show (getNode (c1MixedB g i) 3).indent = i from rfl,
      show openTag2LoopAux 0 [olTag] i (c1MixedB g i) = (c1MixedB g i, none) from rfl]
    rfl
  have hcont : enumContainerStep (c1State1 g "-" i) "+" i = c1MixedUl g i := by
    simp only [enumContainerStep, if_true, if_false,
      show ((("+" : String) = "-")) = False from eq_false (by decide),
      show (c1State1 g "-" i).grammar = g from rfl, hol, Option.getD_some,
      show (c1State1 g "-" i).tagStack = [liTag, ulTag] from rfl,
      show (c1State1 g "-" i).nodeStack = [2, 1, 0] from rfl,
      show ([liTag, ulTag] : List TagDefinition).length = 2 from rfl,
      hscan, show ([liTag, ulTag].getD 1 dummyTagDef) = ulTag from rfl,
      show ((ulTag = olTag)) = False from eq_false (by decide),
      hclose, show olTag.name = "#ol" from rfl, hnd, hopen]
  rw [handleEnum_decomp, hcont, show (c1State1 g "-" i).grammar = g from rfl, hli,
    Option.getD_some]
  simp only [enumItemStep, newDocumentNode,
    show (c1MixedUl g i).grammar = g from rfl,
    show liTag.name = "#li" from rfl, hli]
  rfl

theorem c1_first_dash (g : Grammar) (i : Nat)
    (hroot : g.GetTag "#root" = some rootTag)
    (hul : g.GetTag "#ul" = some ulTag) (hli : g.GetTag "#li" = some liTag) :
    handleEnum (initState g []) "-" i = c1State1 g "-" i := by
  have hinit : initState g [] = c1First0 g := by
    simp only [initState, NewDocument, hroot, Option.getD_some]
    rfl
  have hnd : newDocumentNode (c1First0 g) "#ul" i = (c1FirstB g "-" i, 1) := by
    simp only [newDocumentNode, show (c1First0 g).grammar = g from rfl, hul]
    rfl
  have hopen : openTag2 (c1FirstB g "-" i) ulTag 1 true = c1FirstUl g "-" i := by
    have hcs : closeStyles (c1FirstB g "-" i) = c1FirstB g "-" i := rfl
    have hdc : defaultChain g ulTag = [ulTag] := rfl
    simp only [openTag2, hcs, if_pos rfl,
      show (c1FirstB g "-" i).grammar = g from rfl, hdc,
      show (c1FirstB g "-" i).tagStack.length = 0 from rfl,
      show (getNode (c1FirstB g "-" i) 1).indent = i from rfl,
      show openTag2LoopAux 0 [ulTag] i (c1FirstB g "-" i) = (c1FirstB g "-" i, none)
        from rfl]
    rfl
  have hcont : enumContainerStep (c1First0 g) "-" i = c1FirstUl g "-" i := by
    simp only [enumContainerStep, if_true,
      show (c1First0 g).grammar = g from rfl, hul, Option.getD_some,
      show (c1First0 g).tagStack = ([] : List TagDefinition) from rfl,
      show (c1First0 g).nodeStack = [0] from rfl,
      show enumScanAux (c1First0 g) ulTag i [] [0] 0 none = (none, none) from rfl,
      show closeTags (c1First0 g) 0 = c1First0 g from rfl,
      show ulTag.name = "#ul" from rfl, hnd, hopen]
  rw [hinit, handleEnum_decomp, hcont, show (c1First0 g).grammar = g from rfl, hli,
    Option.getD_some]
  simp only [enumItemStep, newDocumentNode,
    show (c1FirstUl g "-" i).grammar = g from rfl,
    show liTag.name = "#li" from rfl, hli]
  rfl

theorem c1_first_plus (g : Grammar) (i : Nat)
    (hroot : g.GetTag "#root" = some rootTag)
    (hol : g.GetTag "#ol" = some olTag) (hli : g.GetTag "#li" = some liTag) :
    handleEnum (initState g []) "+" i = c1State1 g "+" i := by
  have hinit : initState g [] = c1First0 g := by
    simp only [initState, NewDocument, hroot, Option.getD_some]
    rfl
  have hnd : newDocumentNode (c1First0 g) "#ol" i = (c1FirstB g "+" i, 1) := by
    simp only [newDocumentNode, show (c1First0 g).grammar = g from rfl, hol]
    rfl
  have hopen : openTag2 (c1FirstB g "+" i) olTag 1 true = c1FirstUl g "+" i := by
    have hcs : closeStyles (c1FirstB g "+" i) = c1FirstB g "+" i := rfl
    have hdc : defaultChain g olTag = [olTag] := rfl
    simp only [openTag2, hcs, if_pos rfl,
      show (c1FirstB g "+" i).grammar = g from rfl, hdc,
      show (c1FirstB g "+" i).tagStack.length = 0 from rfl,
      show (getNode (c1FirstB g "+" i) 1).indent = i from rfl,
      show openTag2LoopAux 0 [olTag] i (c1FirstB g "+" i) = (c1FirstB g "+" i, none)
        from rfl]
    rfl
  have hcont : enumContainerStep (c1First0 g) "+" i = c1FirstUl g "+" i := by
    simp only [enumContainerStep, if_true, if_false,
      show ((("+" : String) = "-")) = False from eq_false (by decide),
      show (c1First0 g).grammar = g from rfl, hol, Option.getD_some,
      show (c1First0 g).tagStack = ([] : List TagDefinition) from rfl,
      show (c1First0 g).nodeStack = [0] from rfl,
      show enumScanAux (c1First0 g) olTag i [] [0] 0 none = (none, none) from rfl,
      show closeTags (c1First0 g) 0 = c1First0 g from rfl,
      show olTag.name = "#ol" from rfl, hnd, hopen]
  rw [hinit, handleEnum_decomp, hcont, show (c1First0 g).grammar = g from rfl, hli,
    Option.getD_some]
  simp only [enumItemStep, newDocumentNode,
    show (c1FirstUl g "+" i).grammar = g from rfl,
    show liTag.name = "#li" from rfl, hli]
  rfl

theorem c1_lookups :
    NewGrammar.GetTag "#root" = some rootTag ∧ NewGrammar.GetTag "#ul" = some ulTag
      ∧ NewGrammar.GetTag "#ol" = some olTag ∧ NewGrammar.GetTag "#li" = some liTag := by
  refine ⟨?_, ?_, ?_, ?_⟩ <;> decide

/-- C1 as stated is false: after a list marker at indent 0 and a second,
deeper marker on the next line, the second marker's container is appended as
a child of the FIRST CONTAINER, sibling-linked after the first item — the
first item has no children at all, and the container's ancestor chain is the
outer container and the root, so it is not a descendant of the item; and two
equal-indent markers of different kinds open a second container instead of a
sibling item in the same container. -/
theorem c1_indent_nesting_counterexample :
    ((getNode (handleEnum (handleEnum (initState NewGrammar []) "-" 0) "-" 2) 3).tag = "#ul"
      ∧ (getNode (handleEnum (handleEnum (initState NewGrammar []) "-" 0) "-" 2) 3).parent
          = some 1
      ∧ (getNode (handleEnum (handleEnum (initState NewGrammar []) "-" 0) "-" 2) 2).tag = "#li"
      ∧ (getNode (handleEnum (handleEnum (initState NewGrammar []) "-" 0) "-" 2) 2).children
          = ([] : List Nat)
      ∧ (getNode (handleEnum (handleEnum (initState NewGrammar []) "-" 0) "-" 2) 3).prevSibling
          = some 2
      ∧ (getNode (handleEnum (handleEnum (initState NewGrammar []) "-" 0) "-" 2) 1).parent
          = some 0
      ∧ (getNode (handleEnum (handleEnum (initState NewGrammar []) "-" 0) "-" 2) 0).parent
          = none)
    ∧ ((getNode (handleEnum (handleEnum (initState NewGrammar []) "-" 0) "+" 0) 3).tag = "#ol"
      ∧ (getNode (handleEnum (handleEnum (initState NewGrammar []) "-" 0) "+" 0) 3).parent
          = some 0
      ∧ (getNode (handleEnum (handleEnum (initState NewGrammar []) "-" 0) "+" 0) 4).parent
          = some 3) := by
  obtain ⟨hroot, hul, hol, hli⟩ := c1_lookups
  have h1 : handleEnum (initState NewGrammar []) "-" 0 = c1State1 NewGrammar "-" 0 :=
    c1_first_dash NewGrammar 0 hroot hul hli
  have h2 : handleEnum (c1State1 NewGrammar "-" 0) "-" 2 = c1Strict NewGrammar "-" 0 2 :=
    c1_strict_dash NewGrammar 0 2 (by decide) hul hli
  have h3 : handleEnum (c1State1 NewGrammar "-" 0) "+" 0 = c1Mixed NewGrammar 0 :=
    c1_mixed NewGrammar 0 hol hli
  rw [h1, h2, h3]
  exact ⟨⟨rfl, rfl, rfl, rfl, rfl, rfl, rfl⟩, rfl, rfl, rfl⟩

/-- C1 amended: for any two consecutive markers of the same kind, a strictly
deeper second marker opens a fresh container that becomes a child of the
first marker's CONTAINER (the next sibling of the first item, not a
descendant of it), holding the second item; and an equal-indent second
marker of the same kind appends a sibling item to the same container. -/
theorem c1_indent_nesting_amended (m : String) (i1 i2 : Nat) (hm : m = "-" ∨ m = "+") (h : i1 < i2) :
    (handleEnum (handleEnum (initState NewGrammar []) m i1) m i2
        = c1Strict NewGrammar m i1 i2
      ∧ (getNode (c1Strict NewGrammar m i1 i2) 3).tagDefinition = c1Container m
      ∧ (getNode (c1Strict NewGrammar m i1 i2) 3).parent = some 1
      ∧ (getNode (c1Strict NewGrammar m i1 i2) 3).prevSibling = some 2
      ∧ (getNode (c1Strict NewGrammar m i1 i2) 4).parent = some 3
      ∧ (getNode (c1Strict NewGrammar m i1 i2) 2).children = ([] : List Nat))
    ∧ (handleEnum (handleEnum (initState NewGrammar []) m i1) m i1 = c1Equal NewGrammar m i1
      ∧ (getNode (c1Equal NewGrammar m i1) 3).tagDefinition = liTag
      ∧ (getNode (c1Equal NewGrammar m i1) 3).parent = some 1
      ∧ (getNode (c1Equal NewGrammar m i1) 3).prevSibling = some 2
      ∧ (getNode (c1Equal NewGrammar m i1) 1).children = [2, 3]) := by
  obtain ⟨hroot, hul, hol, hli⟩ := c1_lookups
  rcases hm with rfl | rfl
  · have h1 : handleEnum (initState NewGrammar []) "-" i1 = c1State1 NewGrammar "-" i1 :=
      c1_first_dash NewGrammar i1 hroot hul hli
    rw [h1]
    exact ⟨⟨c1_strict_dash NewGrammar i1 i2 h hul hli, rfl, rfl, rfl, rfl, rfl⟩,
      c1_equal_dash NewGrammar i1 hul hli, rfl, rfl, rfl, rfl⟩
  · have h1 : handleEnum (initState NewGrammar []) "+" i1 = c1State1 NewGrammar "+" i1 :=
      c1_first_plus NewGrammar i1 hroot hol hli
    rw [h1]
    exact ⟨⟨c1_strict_plus NewGrammar i1 i2 h hol hli, rfl, rfl, rfl, rfl, rfl⟩,
      c1_equal_plus NewGrammar i1 hol hli, rfl, rfl, rfl, rfl⟩

theorem c1_witness :
    ((("-" : String) = "-" ∨ ("-" : String) = "+") ∧ (0 : Nat) < 1)
    ∧ handleEnum (handleEnum (initState NewGrammar []) "-" 0) "-" 1
        = c1Strict NewGrammar "-" 0 1
    ∧ (getNode (c1Strict NewGrammar "-" 0 1) 3).parent = some 1
    ∧ handleEnum (handleEnum (initState NewGrammar []) "-" 0) "-" 0
        = c1Equal NewGrammar "-" 0 :=
  ⟨⟨Or.inl rfl, by decide⟩,
   (c1_indent_nesting_amended "-" 0 1 (Or.inl rfl) (by decide)).1.1,
   (c1_indent_nesting_amended "-" 0 1 (Or.inl rfl) (by decide)).1.2.2.1,
   (c1_indent_nesting_amended "-" 0 1 (Or.inl rfl) (by decide)).2.1⟩

end Mates
